import Mathlib

/-!
FreeOrion network message envelope (`network/Message.cpp`)

A shallow embedding of the `Message` class, its header codec
(`BufferToHeader` / `HeaderToBuffer`), the named constructors and the
`ExtractMessageData` overloads, together with theorems about them.

Conventions of the embedding

* a C `int` is an `Int`; where a value is converted into an `int` the
  conversion is written out (`sizeToInt`, reduction modulo `2^32`);
* `std::size_t` is a `Nat` below `2^64`; conversion of an `int` into it is
  `intToSize` (reduction modulo `2^64`);
* an operation whose behaviour is undefined on some input (a read or write
  outside the array a pointer refers to) returns `none` there;
* a `std::string` is a `List Char`, one `Char` per byte;
* the free store is explicit: `new char[n]`, `delete[]`, `std::copy` and the
  reads done by `Text()` act on a `Heap`, and a `Message` holds the address of
  its payload storage, as the class holds a `char*`.
-/

namespace FreeOrion

/-! ## Machine integers -/

/-- Conversion of a `std::size_t` value to `int` (`header_buf[4] = message.Size()`):
the value is reduced modulo `2^32` into the range `[-2^31, 2^31)`. -/
@[irreducible] def sizeToInt (n : Nat) : Int :=
  let r : Int := (n : Int) % 4294967296
  if r < 2147483648 then r else r - 4294967296

/-- Conversion of an `int` value to `std::size_t`
(`message.m_message_size = header_buf[4]`): reduction modulo `2^64`. -/
@[irreducible] def intToSize (v : Int) : Nat :=
  (v % 18446744073709551616).toNat

/-- The values of type `int`. -/
def IsInt (v : Int) : Prop := -2147483648 ≤ v ∧ v < 2147483648

instance (v : Int) : Decidable (IsInt v) := by unfold IsInt; infer_instance

/-- The values of type `std::size_t`. -/
def IsSize (n : Nat) : Prop := n < 18446744073709551616

instance (n : Nat) : Decidable (IsSize n) := by unfold IsSize; infer_instance

/-! ## Enumerations of `Message.h` -/

/-- Modelled from the spec: `Message.h`, which declares `Message::MessageType`,
is not among the sources. The enumerators are the ones `Message.cpp` names: the
27 entries of the `GG_ENUM_MAP` for `Message::MessageType`, in that order, and
`RENAME_PLAYER`, which only `RenameMessage` uses. -/
inductive MessageType where
  | UNDEFINED
  | DEBUG
  | SERVER_DYING
  | HOST_SP_GAME
  | HOST_MP_GAME
  | JOIN_GAME
  | LOBBY_UPDATE
  | LOBBY_CHAT
  | LOBBY_HOST_ABORT
  | LOBBY_EXIT
  | START_MP_GAME
  | SAVE_GAME
  | LOAD_GAME
  | GAME_START
  | TURN_UPDATE
  | TURN_ORDERS
  | TURN_PROGRESS
  | CLIENT_SAVE_DATA
  | COMBAT_START
  | COMBAT_ROUND_UPDATE
  | COMBAT_END
  | HUMAN_PLAYER_CHAT
  | PLAYER_ELIMINATED
  | PLAYER_EXIT
  | REQUEST_NEW_OBJECT_ID
  | DISPATCH_NEW_OBJECT_ID
  | END_GAME
  | RENAME_PLAYER
  deriving DecidableEq, Repr

/-- All enumerators of `MessageType`. -/
def MessageType.all : List MessageType :=
  [.UNDEFINED, .DEBUG, .SERVER_DYING, .HOST_SP_GAME, .HOST_MP_GAME, .JOIN_GAME,
   .LOBBY_UPDATE, .LOBBY_CHAT, .LOBBY_HOST_ABORT, .LOBBY_EXIT, .START_MP_GAME,
   .SAVE_GAME, .LOAD_GAME, .GAME_START, .TURN_UPDATE, .TURN_ORDERS, .TURN_PROGRESS,
   .CLIENT_SAVE_DATA, .COMBAT_START, .COMBAT_ROUND_UPDATE, .COMBAT_END,
   .HUMAN_PLAYER_CHAT, .PLAYER_ELIMINATED, .PLAYER_EXIT, .REQUEST_NEW_OBJECT_ID,
   .DISPATCH_NEW_OBJECT_ID, .END_GAME, .RENAME_PLAYER]

/-- Modelled from the spec: the integer value of an enumerator, as the
declaration in the missing `Message.h` fixes it. Enumerators without
initialisers are numbered from 0 in declaration order; the order is taken to
be the one of `MessageType.all`. -/
def MessageType.toInt (t : MessageType) : Int :=
  (MessageType.all.indexOf t : Nat)

/-- Modelled from the spec: `Message::ModuleType` of the missing `Message.h`,
with the four enumerators of its `GG_ENUM_MAP`. -/
inductive ModuleType where
  | CORE
  | CLIENT_LOBBY_MODULE
  | CLIENT_COMBAT_MODULE
  | CLIENT_SYNCHRONOUS_RESPONSE
  deriving DecidableEq, Repr

/-- All enumerators of `ModuleType`. -/
def ModuleType.all : List ModuleType :=
  [.CORE, .CLIENT_LOBBY_MODULE, .CLIENT_COMBAT_MODULE, .CLIENT_SYNCHRONOUS_RESPONSE]

/-- Modelled from the spec: the integer value of a module enumerator, numbered
from 0 in the order of `ModuleType.all`. -/
def ModuleType.toInt (t : ModuleType) : Int :=
  (ModuleType.all.indexOf t : Nat)

/-- Modelled from the spec: `Message::TurnProgressPhase` of the missing
`Message.h`, with the six enumerators of its `GG_ENUM_MAP`. -/
inductive TurnProgressPhase where
  | FLEET_MOVEMENT
  | COMBAT
  | EMPIRE_PRODUCTION
  | WAITING_FOR_PLAYERS
  | PROCESSING_ORDERS
  | DOWNLOADING
  deriving DecidableEq, Repr

/-! ## The free store -/

/-- The free store. `store p` is the `char` array living at address `p`, if
one does; address `0` is the null pointer. `next` is the address the next
`new char[n]` returns, and `junk p i` is the indeterminate value byte `i` of
the array allocated at `p` starts with. -/
structure Heap where
  store : Nat → Option (List Char)
  next : Nat
  junk : Nat → Nat → Char

/-- A store in which nothing is allocated yet. -/
def Heap.empty : Heap :=
  { store := fun _ => none, next := 1, junk := fun _ _ => '?' }

/-- No array lives at the null pointer, at `next` or beyond it. -/
def Heap.WF (h : Heap) : Prop :=
  0 < h.next ∧ h.store 0 = none ∧ ∀ a, h.next ≤ a → h.store a = none

/-- Replace the array at `p`. -/
def Heap.put (h : Heap) (p : Nat) (v : Option (List Char)) : Heap :=
  { h with store := fun a => if a = p then v else h.store a }

/-- Operator `new char[n]` when the allocator grants the request: a fresh array of
`n` bytes of indeterminate value; returns the new store and the address of the
array. The constructors call it with the size of a string or payload that is
already in memory. `Heap.newArrayOrThrow` adds the outcome in which the request
is refused. -/
def Heap.newArray (h : Heap) (n : Nat) : Heap × Nat :=
  ({ store := fun a => if a = h.next then some ((List.range n).map (h.junk h.next)) else h.store a,
     next := h.next + 1,
     junk := h.junk }, h.next)

/-- Operator `delete[] p`: the array at `p` is released; a null `p` does nothing. -/
def Heap.deleteArray (h : Heap) (p : Nat) : Heap :=
  if p = 0 then h else h.put p none

/-- Number of bytes of storage held at `p` (none for a pointer at which no
array lives, the null pointer included). -/
def Heap.held (h : Heap) (p : Nat) : Nat :=
  match h.store p with
  | some b => b.length
  | none => 0

/-- Read the `n` bytes `[p, p + n)`. Reading beyond the array at `p` is
undefined, rendered as `none`; an empty range reads nothing. -/
def Heap.read (h : Heap) (p n : Nat) : Option (List Char) :=
  if n = 0 then some []
  else match h.store p with
    | some b => if n ≤ b.length then some (b.take n) else none
    | none => none

/-- Write `bytes` to `[p, p + bytes.length)` (the destination side of
`std::copy`, and a write through `Data()`). Writing beyond the array at `p`
is undefined, rendered as `none`; an empty range writes nothing. -/
def Heap.write (h : Heap) (p : Nat) (bytes : List Char) : Option Heap :=
  if bytes = [] then some h
  else match h.store p with
    | some b =>
        if bytes.length ≤ b.length then some (h.put p (some (bytes ++ b.drop bytes.length)))
        else none
    | none => none

/-- The store after a `new char[bytes.length]` whose array has then been filled
with `bytes`. -/
def Heap.withNew (h : Heap) (bytes : List Char) : Heap :=
  { store := fun a => if a = h.next then some bytes else h.store a
    next := h.next + 1
    junk := h.junk }

/-- A payload of `2^31` bytes, each the letter `a`. -/
def payload2G : List Char := List.replicate 2147483648 'a'

/-! ## `class Message` -/

/-- Modelled from the spec: the data members of `Message`, which the missing
`Message.h` declares; their names and order are those of the constructors'
initialiser lists. `m_type` and `m_receiving_module` hold the integer value of
their enumeration (a `static_cast` from `int` keeps the value);
`m_message_size` is taken to be a `std::size_t` of 64 bits, the type that
`Size()` returns, that `Resize` takes and that `text.size()` initialises it
with; `m_message_text` is the address of the payload storage. -/
structure Message where
  m_type : Int
  m_sending_player : Int
  m_receiving_player : Int
  m_receiving_module : Int
  m_message_size : Nat
  m_message_text : Nat
  deriving DecidableEq, Repr

namespace Message

/-- Member `Message::Message()`. -/
def ctorDefault : Message :=
  { m_type := MessageType.UNDEFINED.toInt
    m_sending_player := 0
    m_receiving_player := 0
    m_receiving_module := ModuleType.CORE.toInt
    m_message_size := 0
    m_message_text := 0 }

/-- Member `Message::Message(type, sending_player, receiving_player, receiving_module, text)`:
`new char[text.size()]`, then `std::copy` of the text into it. -/
def ctor (h : Heap) (type sending_player receiving_player receiving_module : Int)
    (text : List Char) : Option (Heap × Message) :=
  let (h1, p) := h.newArray text.length
  (h1.write p text).map fun h2 =>
    (h2, { m_type := type
           m_sending_player := sending_player
           m_receiving_player := receiving_player
           m_receiving_module := receiving_module
           m_message_size := text.length
           m_message_text := p })

/-- Member `Message::Message(const Message& rhs)`: `new char[rhs.m_message_size]`, then
`std::copy` of `rhs.m_message_size` bytes out of `rhs.m_message_text`. -/
def copy (h : Heap) (rhs : Message) : Option (Heap × Message) :=
  let (h1, p) := h.newArray rhs.m_message_size
  (h1.read rhs.m_message_text rhs.m_message_size).bind fun bytes =>
    (h1.write p bytes).map fun h2 =>
      (h2, { m_type := rhs.m_type
             m_sending_player := rhs.m_sending_player
             m_receiving_player := rhs.m_receiving_player
             m_receiving_module := rhs.m_receiving_module
             m_message_size := rhs.m_message_size
             m_message_text := p })

/-- Member `Message::~Message()`. -/
def dtor (h : Heap) (self : Message) : Heap :=
  h.deleteArray self.m_message_text

/-- Member `Message::Type()`. -/
def Type_ (self : Message) : Int := self.m_type

/-- Member `Message::SendingPlayer()`. -/
def SendingPlayer (self : Message) : Int := self.m_sending_player

/-- Member `Message::ReceivingPlayer()`. -/
def ReceivingPlayer (self : Message) : Int := self.m_receiving_player

/-- Member `Message::ReceivingModule()`. -/
def ReceivingModule (self : Message) : Int := self.m_receiving_module

/-- Member `Message::Size()`. -/
def Size (self : Message) : Nat := self.m_message_size

/-- Member `Message::Data()`. -/
def Data (self : Message) : Nat := self.m_message_text

/-- Member `Message::Text()`: `std::string(m_message_text, m_message_size)`. -/
def Text (h : Heap) (self : Message) : Option (List Char) :=
  h.read self.m_message_text self.m_message_size

/-- Member `Message::Resize(size)`, `delete[] m_message_text; m_message_text = new
char[size];`, in the run in which `new char[size]` grants the request.
`Message.ResizeOrThrow` has both outcomes of the call. -/
def Resize (h : Heap) (self : Message) (size : Nat) : Heap × Message :=
  let h1 := h.deleteArray self.m_message_text
  let (h2, p) := h1.newArray size
  (h2, { self with m_message_text := p })

/-- Member `Message::Swap(rhs)`: the six members are exchanged one by one; returns the
new `*this` and the new `rhs`. -/
def Swap (self rhs : Message) : Message × Message :=
  ({ m_type := rhs.m_type
     m_sending_player := rhs.m_sending_player
     m_receiving_player := rhs.m_receiving_player
     m_receiving_module := rhs.m_receiving_module
     m_message_size := rhs.m_message_size
     m_message_text := rhs.m_message_text },
   { m_type := self.m_type
     m_sending_player := self.m_sending_player
     m_receiving_player := self.m_receiving_player
     m_receiving_module := self.m_receiving_module
     m_message_size := self.m_message_size
     m_message_text := self.m_message_text })

/-- Member `Message::operator=(rhs)`: `Message tmp(rhs); swap(*this, tmp);`, after which
`tmp`, now holding the old members of `*this`, is destroyed. Returns the new
store and the new `*this`. -/
def assign (h : Heap) (self rhs : Message) : Option (Heap × Message) :=
  (copy h rhs).map fun (h1, tmp) =>
    let (self1, tmp1) := Swap self tmp
    (dtor h1 tmp1, self1)

/-- Free function `operator==`: the four fields are compared first, and `Text()` of
both sides is read only when they agree (`&&` short-circuits). -/
def eq (h : Heap) (lhs rhs : Message) : Option Bool :=
  if lhs.Type_ = rhs.Type_ ∧ lhs.SendingPlayer = rhs.SendingPlayer ∧
     lhs.ReceivingPlayer = rhs.ReceivingPlayer ∧ lhs.ReceivingModule = rhs.ReceivingModule then
    (lhs.Text h).bind fun a => (rhs.Text h).map fun b => decide (a = b)
  else some false

/-- Free function `operator!=`: `!(lhs == rhs)`. -/
def ne (h : Heap) (lhs rhs : Message) : Option Bool :=
  (eq h lhs rhs).map fun b => !b

/-- The payload-length invariant: `Size()` is the number of bytes of payload
storage the Message holds. -/
def SizeInv (h : Heap) (self : Message) : Prop :=
  self.Size = h.held self.Data

instance (h : Heap) (self : Message) : Decidable (SizeInv h self) := by
  unfold SizeInv; infer_instance

/-- A later change to the payload of a Message, as the decode path makes it:
`c.Resize(n)`, then `bytes` written through `c.Data()`. -/
def refill (h : Heap) (c : Message) (n : Nat) (bytes : List Char) : Option (Heap × Message) :=
  let (h1, c1) := Resize h c n
  (h1.write c1.Data bytes).map fun h2 => (h2, c1)

/-- Message `c`, in store `h1`, is an independent copy of Message `m`, whose text
was `t` in store `h`: `c == m`; `m` still reads `t` and its storage is what it
was; and whatever `c.Resize(n)` and a write of `bytes` through `c.Data()` do to
`c`, they complete, `c` then holds `bytes`, and `m` still reads `t` out of the
storage it had. -/
def IndependentCopy (h : Heap) (m : Message) (t : List Char) (h1 : Heap) (c : Message) : Prop :=
  eq h1 c m = some true ∧ m.Text h1 = some t ∧ h1.store m.Data = h.store m.Data ∧
  ∀ n bytes, List.length bytes ≤ n →
    ∃ h2 c2, refill h1 c n bytes = some (h2, c2) ∧
      h2.read c2.Data bytes.length = some bytes ∧
      m.Text h2 = some t ∧ h2.store m.Data = h.store m.Data

end Message

/-! ## Header codec -/

/-- An `int*` header buffer: slot `i` holds `buf i`. -/
abbrev HeaderBuf := Nat → Int

/-- The array of five `int`s `{a, b, c, d, e}` (further slots read 0). -/
def HeaderBuf.of (a b c d e : Int) : HeaderBuf :=
  fun i => [a, b, c, d, e].getD i 0

/-- Assignment `buf[i] = v`. -/
def HeaderBuf.set (buf : HeaderBuf) (i : Nat) (v : Int) : HeaderBuf :=
  fun j => if j = i then v else buf j

/-- Function `BufferToHeader(header_buf, message)`: five assignments to the members of
`message`; the `int` of slot 4 is converted to `std::size_t`. -/
def BufferToHeader (header_buf : HeaderBuf) (message : Message) : Message :=
  { message with
    m_type := header_buf 0
    m_sending_player := header_buf 1
    m_receiving_player := header_buf 2
    m_receiving_module := header_buf 3
    m_message_size := intToSize (header_buf 4) }

/-- Function `HeaderToBuffer(message, header_buf)`: five assignments to the slots of
`header_buf`; `Size()` is converted to `int`. -/
def HeaderToBuffer (message : Message) (header_buf : HeaderBuf) : HeaderBuf :=
  ((((header_buf.set 0 message.Type_).set 1 message.SendingPlayer).set 2
    message.ReceivingPlayer).set 3 message.ReceivingModule).set 4 (sizeToInt message.Size)

/-- The outcome of decoding a header, in the spec's vocabulary. -/
inductive HeaderError where
  | HeaderMalformed
  deriving DecidableEq, Repr

/-- The spec's `DecodeHeader` as the source realises it: `BufferToHeader` returns
`void`, tests nothing and throws nothing, so its only outcome is normal
completion with the assigned members. -/
def DecodeHeader (header_buf : HeaderBuf) (message : Message) : Except HeaderError Message :=
  Except.ok (BufferToHeader header_buf message)

/-! ## Serialization codec and program state -/

/-- The domain types the builders serialise; they are declared outside
`Message.cpp`, which only hands their values to the archive. -/
structure Domain where
  EmpireManager : Type
  Universe : Type
  OrderSet : Type
  SaveGameUIData : Type
  MultiplayerLobbyData : Type
  SinglePlayerSetupData : Type

/-- Modelled from the spec: one typed field of an archive (`FREEORION_OARCHIVE_TYPE`
and `Serialize` are declared in the missing `util/Serialize.h`). The empires
and the universe are serialised from the viewpoint `Universe::s_encoding_empire`
has at that moment, which the field records. -/
inductive Field (D : Domain) where
  | bool (b : Bool)
  | int (i : Int)
  | phase (p : TurnProgressPhase)
  | empires (viewpoint : Int) (e : D.EmpireManager)
  | univ (viewpoint : Int) (u : D.Universe)
  | orders (o : D.OrderSet)
  | uiData (u : D.SaveGameUIData)
  | lobbyData (d : D.MultiplayerLobbyData)
  | setupData (d : D.SinglePlayerSetupData)

/-- Modelled from the spec: the archive format. `str` is what `os.str()` holds
once the output archive over `os` has been closed, `parse` is what an input
archive makes of a payload text. -/
structure Codec (D : Domain) where
  str : List (Field D) → List Char
  parse : List Char → Option (List (Field D))

/-- The codec loses nothing: every written field sequence is read back as written. -/
def Codec.Lossless {D : Domain} (c : Codec D) : Prop :=
  ∀ fs, c.parse (c.str fs) = some fs

/-- The domain in which every domain type has the single value `()`. -/
def Domain.unit : Domain :=
  { EmpireManager := Unit, Universe := Unit, OrderSet := Unit, SaveGameUIData := Unit,
    MultiplayerLobbyData := Unit, SinglePlayerSetupData := Unit }

/-- The phase with a given number. -/
def TurnProgressPhase.ofInt (i : Int) : TurnProgressPhase :=
  if i = 0 then .FLEET_MOVEMENT
  else if i = 1 then .COMBAT
  else if i = 2 then .EMPIRE_PRODUCTION
  else if i = 3 then .WAITING_FOR_PLAYERS
  else if i = 4 then .PROCESSING_ORDERS
  else .DOWNLOADING

/-- The number of a phase. -/
def TurnProgressPhase.toInt : TurnProgressPhase → Int
  | .FLEET_MOVEMENT => 0
  | .COMBAT => 1
  | .EMPIRE_PRODUCTION => 2
  | .WAITING_FOR_PLAYERS => 3
  | .PROCESSING_ORDERS => 4
  | .DOWNLOADING => 5

/-- A field of `Domain.unit` as a tag and a number. -/
def Field.code : Field Domain.unit → Nat × Int
  | .bool b => (0, if b then 1 else 0)
  | .int i => (1, i)
  | .phase p => (2, p.toInt)
  | .empires v _ => (3, v)
  | .univ v _ => (4, v)
  | .orders _ => (5, 0)
  | .uiData _ => (6, 0)
  | .lobbyData _ => (7, 0)
  | .setupData _ => (8, 0)

/-- The field a tag and a number stand for. -/
def Field.uncode (x : Nat × Int) : Field Domain.unit :=
  if x.1 = 0 then .bool (decide (x.2 = 1))
  else if x.1 = 1 then .int x.2
  else if x.1 = 2 then .phase (TurnProgressPhase.ofInt x.2)
  else if x.1 = 3 then .empires x.2 ()
  else if x.1 = 4 then .univ x.2 ()
  else if x.1 = 5 then .orders ()
  else if x.1 = 6 then .uiData ()
  else if x.1 = 7 then .lobbyData ()
  else .setupData ()

instance Field.encodableUnit : Encodable (Field Domain.unit) :=
  Encodable.ofLeftInverse Field.code Field.uncode (by
    intro f
    cases f with
    | bool b => cases b <;> rfl
    | int i => rfl
    | phase p => cases p <;> rfl
    | empires v e => rfl
    | univ v u => rfl
    | orders o => rfl
    | uiData u => rfl
    | lobbyData d => rfl
    | setupData d => rfl)

/-- A codec for `Domain.unit`: a field sequence is written as a run of `x` whose
length is the number of the sequence. -/
def Codec.unary : Codec Domain.unit :=
  { str := fun fs => List.replicate (Encodable.encode fs) 'x'
    parse := fun cs => Encodable.decode cs.length }

/-- A domain in which an order set is the list of its order numbers, in
insertion order, and UI data is a number; the other domain types have the
single value `()`. -/
@[reducible] def Domain.simple : Domain :=
  { EmpireManager := Unit, Universe := Unit, OrderSet := List Nat, SaveGameUIData := Nat,
    MultiplayerLobbyData := Unit, SinglePlayerSetupData := Unit }

/-- A field of `Domain.simple` as a tag, a number and a list. -/
def Field.codeSimple : Field Domain.simple → Nat × Int × List Nat
  | .bool b => (0, if b then 1 else 0, [])
  | .int i => (1, i, [])
  | .phase p => (2, p.toInt, [])
  | .empires v _ => (3, v, [])
  | .univ v _ => (4, v, [])
  | .orders o => (5, 0, o)
  | .uiData u => (6, (u : Int), [])
  | .lobbyData _ => (7, 0, [])
  | .setupData _ => (8, 0, [])

/-- The field of `Domain.simple` a tag, a number and a list stand for. -/
def Field.uncodeSimple (x : Nat × Int × List Nat) : Field Domain.simple :=
  if x.1 = 0 then .bool (decide (x.2.1 = 1))
  else if x.1 = 1 then .int x.2.1
  else if x.1 = 2 then .phase (TurnProgressPhase.ofInt x.2.1)
  else if x.1 = 3 then .empires x.2.1 ()
  else if x.1 = 4 then .univ x.2.1 ()
  else if x.1 = 5 then .orders x.2.2
  else if x.1 = 6 then .uiData x.2.1.toNat
  else if x.1 = 7 then .lobbyData ()
  else .setupData ()

instance Field.encodableSimple : Encodable (Field Domain.simple) :=
  Encodable.ofLeftInverse Field.codeSimple Field.uncodeSimple (by
    intro f
    cases f with
    | bool b => cases b <;> rfl
    | int i => rfl
    | phase p => cases p <;> rfl
    | empires v e => rfl
    | univ v u => rfl
    | orders o => rfl
    | uiData u => simp [Field.codeSimple, Field.uncodeSimple]
    | lobbyData d => rfl
    | setupData d => rfl)

/-- A codec for `Domain.simple`, built like `Codec.unary`. -/
def Codec.unarySimple : Codec Domain.simple :=
  { str := fun fs => List.replicate (Encodable.encode fs) 'x'
    parse := fun cs => Encodable.decode cs.length }

/-- An output archive: the fields written so far. -/
abbrev OArchive (D : Domain) := List (Field D)

/-- An input archive: the fields not yet read. -/
abbrev IArchive (D : Domain) := List (Field D)

/-- Operator `oa << x`: a write appends a field. -/
def OArchive.write {D : Domain} (oa : OArchive D) (f : Field D) : OArchive D :=
  oa ++ [f]

/-- Operator `ia >> b` for a `bool`: a read consumes the next field, which has to be
a `bool`. -/
def IArchive.readBool {D : Domain} : IArchive D → Option (Bool × IArchive D)
  | Field.bool b :: rest => some (b, rest)
  | _ => none

/-- Operator `ia >> i` for an `int`. -/
def IArchive.readInt {D : Domain} : IArchive D → Option (Int × IArchive D)
  | Field.int i :: rest => some (i, rest)
  | _ => none

/-- Operator `ia >> p` for a `Message::TurnProgressPhase`. -/
def IArchive.readPhase {D : Domain} : IArchive D → Option (TurnProgressPhase × IArchive D)
  | Field.phase p :: rest => some (p, rest)
  | _ => none

/-- Function `Deserialize(ia, empires)`. -/
def IArchive.readEmpires {D : Domain} : IArchive D → Option (D.EmpireManager × IArchive D)
  | Field.empires _ e :: rest => some (e, rest)
  | _ => none

/-- Function `Deserialize(ia, universe)`. -/
def IArchive.readUniverse {D : Domain} : IArchive D → Option (D.Universe × IArchive D)
  | Field.univ _ u :: rest => some (u, rest)
  | _ => none

/-- The state a builder or extractor runs in: the free store and the static
`Universe::s_encoding_empire`. -/
structure World where
  heap : Heap
  s_encoding_empire : Int

/-- The input archive an extractor opens: `std::istringstream is(msg.Text());
FREEORION_IARCHIVE_TYPE ia(is);`. -/
def openArchive {D : Domain} (c : Codec D) (w : World) (msg : Message) : Option (IArchive D) :=
  (msg.Text w.heap).bind c.parse

/-! ## Strings and names -/

/-- The character of a decimal digit. -/
def digitChar (d : Nat) : Char := Char.ofNat (48 + d)

/-- The decimal digits of `n`, least significant first. `fuel` bounds the number
of digits; `n + 1` is always enough. -/
def digitsLE : Nat → Nat → List Nat
  | 0, _ => []
  | fuel + 1, n => if n < 10 then [n] else n % 10 :: digitsLE fuel (n / 10)

/-- The decimal text of a natural number, most significant digit first. -/
def decimalNat (n : Nat) : List Char :=
  (digitsLE (n + 1) n).reverse.map digitChar

/-- The decimal text of an `int`, which is what `boost::lexical_cast<std::string>(i)`
and `os << i` give: a minus sign for a negative value, then the digits of the
magnitude, no leading zero. -/
def decimal (i : Int) : List Char :=
  if i < 0 then '-' :: decimalNat i.natAbs else decimalNat i.natAbs

/-- The value of a decimal digit character. -/
def digitVal (c : Char) : Option Nat :=
  if 48 ≤ c.toNat ∧ c.toNat ≤ 57 then some (c.toNat - 48) else none

/-- The values of a run of decimal digit characters, if all of them are digits. -/
def digitVals : List Char → Option (List Nat)
  | [] => some []
  | c :: cs =>
      match digitVal c, digitVals cs with
      | some d, some ds => some (d :: ds)
      | _, _ => none

/-- Reading a non-empty run of decimal digits as a natural number. -/
def parseNat (cs : List Char) : Option Nat :=
  if cs = [] then none
  else (digitVals cs).map fun ds => Nat.ofDigits 10 ds.reverse

/-- Reading a text as a decimal integer, the way the receiver of an id reads
the payload: an optional minus sign, then digits. -/
def parseDecimal : List Char → Option Int
  | '-' :: cs => (parseNat cs).map fun n => -(n : Int)
  | cs => (parseNat cs).map fun n => (n : Int)

/-- Constant `MESSAGE_SCOPE_PREFIX`. -/
def MESSAGE_SCOPE_PREFIX : List Char := "Message::".toList

/-- Function `boost::algorithm::starts_with(str, test)`. -/
def starts_with (str test : List Char) : Bool := test.isPrefixOf str

/-- Function `boost::algorithm::erase_first_copy(str, search)`: a copy of `str`
without the first occurrence of `search`; `str` itself when there is none. -/
def erase_first_copy : List Char → List Char → List Char
  | [], _ => []
  | c :: rest, search =>
      if search.isPrefixOf (c :: rest) then (c :: rest).drop search.length
      else c :: erase_first_copy rest search

/-- Function `StripMessageScoping(str)`. -/
def StripMessageScoping (str : List Char) : List Char :=
  if starts_with str MESSAGE_SCOPE_PREFIX then erase_first_copy str MESSAGE_SCOPE_PREFIX
  else str

/-- The `GG_ENUM_MAP` of `Message::MessageType`: one entry per `GG_ENUM_MAP_INSERT`,
which maps the enumerator to its spelling in the source. -/
def MessageType.enumMap : List (MessageType × String) :=
  [(.UNDEFINED, "Message::UNDEFINED"),
   (.DEBUG, "Message::DEBUG"),
   (.SERVER_DYING, "Message::SERVER_DYING"),
   (.HOST_SP_GAME, "Message::HOST_SP_GAME"),
   (.HOST_MP_GAME, "Message::HOST_MP_GAME"),
   (.JOIN_GAME, "Message::JOIN_GAME"),
   (.LOBBY_UPDATE, "Message::LOBBY_UPDATE"),
   (.LOBBY_CHAT, "Message::LOBBY_CHAT"),
   (.LOBBY_HOST_ABORT, "Message::LOBBY_HOST_ABORT"),
   (.LOBBY_EXIT, "Message::LOBBY_EXIT"),
   (.START_MP_GAME, "Message::START_MP_GAME"),
   (.SAVE_GAME, "Message::SAVE_GAME"),
   (.LOAD_GAME, "Message::LOAD_GAME"),
   (.GAME_START, "Message::GAME_START"),
   (.TURN_UPDATE, "Message::TURN_UPDATE"),
   (.TURN_ORDERS, "Message::TURN_ORDERS"),
   (.TURN_PROGRESS, "Message::TURN_PROGRESS"),
   (.CLIENT_SAVE_DATA, "Message::CLIENT_SAVE_DATA"),
   (.COMBAT_START, "Message::COMBAT_START"),
   (.COMBAT_ROUND_UPDATE, "Message::COMBAT_ROUND_UPDATE"),
   (.COMBAT_END, "Message::COMBAT_END"),
   (.HUMAN_PLAYER_CHAT, "Message::HUMAN_PLAYER_CHAT"),
   (.PLAYER_ELIMINATED, "Message::PLAYER_ELIMINATED"),
   (.PLAYER_EXIT, "Message::PLAYER_EXIT"),
   (.REQUEST_NEW_OBJECT_ID, "Message::REQUEST_NEW_OBJECT_ID"),
   (.DISPATCH_NEW_OBJECT_ID, "Message::DISPATCH_NEW_OBJECT_ID"),
   (.END_GAME, "Message::END_GAME")]

/-- The `GG_ENUM_MAP` of `Message::ModuleType`. -/
def ModuleType.enumMap : List (ModuleType × String) :=
  [(.CORE, "Message::CORE"),
   (.CLIENT_LOBBY_MODULE, "Message::CLIENT_LOBBY_MODULE"),
   (.CLIENT_COMBAT_MODULE, "Message::CLIENT_COMBAT_MODULE"),
   (.CLIENT_SYNCHRONOUS_RESPONSE, "Message::CLIENT_SYNCHRONOUS_RESPONSE")]

/-- Modelled from the spec: `GG::EnumMap::FromEnum` of the missing `GG/Enum.h`: the
name the map holds for the value. For a value without an entry the result is
taken to be the empty string; the spec does not say what it is, only that it
cannot be the name of that value, which the map does not hold. -/
def FromEnum {α : Type} (toInt : α → Int) (map : List (α × String)) (v : Int) : List Char :=
  match map.find? fun e => decide (toInt e.1 = v) with
  | some e => e.2.toList
  | none => []

/-- Function `MessageTypeStr(type)`. -/
def MessageTypeStr (type : Int) : List Char :=
  StripMessageScoping (FromEnum MessageType.toInt MessageType.enumMap type)

/-- Function `ModuleTypeStr(type)`. -/
def ModuleTypeStr (type : Int) : List Char :=
  StripMessageScoping (FromEnum ModuleType.toInt ModuleType.enumMap type)

/-- Free function `operator<<(os, msg)`: `os` is the text the stream holds, the
result is the text it holds afterwards. -/
def Message.print (h : Heap) (os : List Char) (msg : Message) : Option (List Char) :=
  let os := os ++ "Message: ".toList ++ MessageTypeStr msg.Type_ ++ " ".toList
    ++ decimal msg.SendingPlayer
  let os :=
    if msg.SendingPlayer = -1 then os ++ "(server/unknown) --> ".toList
    else if msg.SendingPlayer = 0 then os ++ "(host) --> ".toList
    else os ++ " --> ".toList
  let os := os ++ decimal msg.ReceivingPlayer
  let os :=
    if msg.ReceivingPlayer = -1 then os ++ "(server/unknown).".toList
    else if msg.ReceivingPlayer = 0 then os ++ "(host).".toList
    else os ++ ".".toList
  (msg.Text h).map fun text =>
    os ++ ModuleTypeStr msg.ReceivingModule ++ " ".toList ++ ['"'] ++ text ++ ['"', '\n']

/-! ## Message named ctors -/

/-- Function `GameStartMessage(player_id, single_player_game, empire_id, current_turn,
empires, universe)`. -/
def GameStartMessage {D : Domain} (c : Codec D) (w : World) (player_id : Int)
    (single_player_game : Bool) (empire_id current_turn : Int)
    (empires : D.EmpireManager) (universe_ : D.Universe) : Option (World × Message) :=
  let oa : OArchive D := []
  let oa := oa.write (Field.bool single_player_game)
  let oa := oa.write (Field.int empire_id)
  let oa := oa.write (Field.int current_turn)
  let s_encoding_empire := empire_id
  let oa := oa.write (Field.empires s_encoding_empire empires)
  let oa := oa.write (Field.univ s_encoding_empire universe_)
  (Message.ctor w.heap MessageType.GAME_START.toInt (-1) player_id ModuleType.CORE.toInt
      (c.str oa)).map
    fun (h, m) => ({ heap := h, s_encoding_empire := s_encoding_empire }, m)

/-- Function `TurnProgressMessage(player_id, phase_id, empire_id)`. -/
def TurnProgressMessage {D : Domain} (c : Codec D) (w : World) (player_id : Int)
    (phase_id : TurnProgressPhase) (empire_id : Int) : Option (World × Message) :=
  let oa : OArchive D := []
  let oa := oa.write (Field.phase phase_id)
  let oa := oa.write (Field.int empire_id)
  (Message.ctor w.heap MessageType.TURN_PROGRESS.toInt (-1) player_id ModuleType.CORE.toInt
      (c.str oa)).map
    fun (h, m) => ({ w with heap := h }, m)

/-- Function `TurnUpdateMessage(player_id, empire_id, current_turn, empires, universe)`. -/
def TurnUpdateMessage {D : Domain} (c : Codec D) (w : World) (player_id empire_id : Int)
    (current_turn : Int) (empires : D.EmpireManager) (universe_ : D.Universe) :
    Option (World × Message) :=
  let oa : OArchive D := []
  let s_encoding_empire := empire_id
  let oa := oa.write (Field.int current_turn)
  let oa := oa.write (Field.empires s_encoding_empire empires)
  let oa := oa.write (Field.univ s_encoding_empire universe_)
  (Message.ctor w.heap MessageType.TURN_UPDATE.toInt (-1) player_id ModuleType.CORE.toInt
      (c.str oa)).map
    fun (h, m) => ({ heap := h, s_encoding_empire := s_encoding_empire }, m)

/-- Function `HostSPGameMessage(player_id, setup_data)`. -/
def HostSPGameMessage {D : Domain} (c : Codec D) (w : World) (player_id : Int)
    (setup_data : D.SinglePlayerSetupData) : Option (World × Message) :=
  let oa : OArchive D := []
  let oa := oa.write (Field.setupData setup_data)
  (Message.ctor w.heap MessageType.HOST_SP_GAME.toInt player_id (-1) ModuleType.CORE.toInt
      (c.str oa)).map
    fun (h, m) => ({ w with heap := h }, m)

/-- Function `HostMPGameMessage(player_id, host_player_name)`. -/
def HostMPGameMessage (h : Heap) (player_id : Int) (host_player_name : List Char) :
    Option (Heap × Message) :=
  Message.ctor h MessageType.HOST_MP_GAME.toInt player_id (-1) ModuleType.CORE.toInt
    host_player_name

/-- Function `JoinGameMessage(player_name)`. -/
def JoinGameMessage (h : Heap) (player_name : List Char) : Option (Heap × Message) :=
  Message.ctor h MessageType.JOIN_GAME.toInt (-1) (-1) ModuleType.CORE.toInt player_name

/-- Function `HostSPAckMessage(player_id)`. -/
def HostSPAckMessage (h : Heap) (player_id : Int) : Option (Heap × Message) :=
  Message.ctor h MessageType.HOST_SP_GAME.toInt (-1) player_id ModuleType.CORE.toInt
    "ACK".toList

/-- Function `HostMPAckMessage(player_id)`. -/
def HostMPAckMessage (h : Heap) (player_id : Int) : Option (Heap × Message) :=
  Message.ctor h MessageType.HOST_MP_GAME.toInt (-1) player_id ModuleType.CORE.toInt
    "ACK".toList

/-- Function `JoinAckMessage(player_id)`. -/
def JoinAckMessage (h : Heap) (player_id : Int) : Option (Heap × Message) :=
  Message.ctor h MessageType.JOIN_GAME.toInt (-1) player_id ModuleType.CORE.toInt
    (decimal player_id)

/-- Function `RenameMessage(player_id, new_name)`. -/
def RenameMessage (h : Heap) (player_id : Int) (new_name : List Char) :
    Option (Heap × Message) :=
  Message.ctor h MessageType.RENAME_PLAYER.toInt (-1) player_id ModuleType.CORE.toInt new_name

/-- Function `EndGameMessage(sender, receiver)`. -/
def EndGameMessage (h : Heap) (sender receiver : Int) : Option (Heap × Message) :=
  Message.ctor h MessageType.END_GAME.toInt sender receiver ModuleType.CORE.toInt []

/-- Function `VictoryMessage(receiver)`. -/
def VictoryMessage (h : Heap) (receiver : Int) : Option (Heap × Message) :=
  Message.ctor h MessageType.END_GAME.toInt (-1) receiver ModuleType.CORE.toInt
    "VICTORY".toList

/-- Function `TurnOrdersMessage(sender, orders)`. -/
def TurnOrdersMessage {D : Domain} (c : Codec D) (w : World) (sender : Int)
    (orders : D.OrderSet) : Option (World × Message) :=
  let oa : OArchive D := []
  let oa := oa.write (Field.orders orders)
  (Message.ctor w.heap MessageType.TURN_ORDERS.toInt sender (-1) ModuleType.CORE.toInt
      (c.str oa)).map
    fun (h, m) => ({ w with heap := h }, m)

/-- Overload `ClientSaveDataMessage(sender, orders, ui_data)`. -/
def ClientSaveDataMessage_ui {D : Domain} (c : Codec D) (w : World) (sender : Int)
    (orders : D.OrderSet) (ui_data : D.SaveGameUIData) : Option (World × Message) :=
  let oa : OArchive D := []
  let oa := oa.write (Field.orders orders)
  let ui_data_available := true
  let oa := oa.write (Field.bool ui_data_available)
  let oa := oa.write (Field.uiData ui_data)
  (Message.ctor w.heap MessageType.CLIENT_SAVE_DATA.toInt sender (-1) ModuleType.CORE.toInt
      (c.str oa)).map
    fun (h, m) => ({ w with heap := h }, m)

/-- Overload `ClientSaveDataMessage(sender, orders)`. -/
def ClientSaveDataMessage {D : Domain} (c : Codec D) (w : World) (sender : Int)
    (orders : D.OrderSet) : Option (World × Message) :=
  let oa : OArchive D := []
  let oa := oa.write (Field.orders orders)
  let ui_data_available := false
  let oa := oa.write (Field.bool ui_data_available)
  (Message.ctor w.heap MessageType.CLIENT_SAVE_DATA.toInt sender (-1) ModuleType.CORE.toInt
      (c.str oa)).map
    fun (h, m) => ({ w with heap := h }, m)

/-- Function `RequestNewObjectIDMessage(sender)`. -/
def RequestNewObjectIDMessage (h : Heap) (sender : Int) : Option (Heap × Message) :=
  Message.ctor h MessageType.REQUEST_NEW_OBJECT_ID.toInt sender (-1) ModuleType.CORE.toInt []

/-- Function `DispatchObjectIDMessage(player_id, new_id)`. -/
def DispatchObjectIDMessage (h : Heap) (player_id new_id : Int) : Option (Heap × Message) :=
  Message.ctor h MessageType.DISPATCH_NEW_OBJECT_ID.toInt (-1) player_id
    ModuleType.CLIENT_SYNCHRONOUS_RESPONSE.toInt (decimal new_id)

/-- Function `HostSaveGameMessage(sender, filename)`. -/
def HostSaveGameMessage (h : Heap) (sender : Int) (filename : List Char) :
    Option (Heap × Message) :=
  Message.ctor h MessageType.SAVE_GAME.toInt sender (-1) ModuleType.CORE.toInt filename

/-- Function `HostLoadGameMessage(sender, filename)`. -/
def HostLoadGameMessage (h : Heap) (sender : Int) (filename : List Char) :
    Option (Heap × Message) :=
  Message.ctor h MessageType.LOAD_GAME.toInt sender (-1) ModuleType.CORE.toInt filename

/-- Function `ServerSaveGameMessage(receiver, done)`. -/
def ServerSaveGameMessage (h : Heap) (receiver : Int) (done : Bool) : Option (Heap × Message) :=
  Message.ctor h MessageType.SAVE_GAME.toInt (-1) receiver
    (if done then ModuleType.CLIENT_SYNCHRONOUS_RESPONSE.toInt else ModuleType.CORE.toInt) []

/-- Function `ServerLoadGameMessage(receiver, orders, ui_data)`; a null `ui_data`
is `none`. -/
def ServerLoadGameMessage {D : Domain} (c : Codec D) (w : World) (receiver : Int)
    (orders : D.OrderSet) (ui_data : Option D.SaveGameUIData) : Option (World × Message) :=
  let oa : OArchive D := []
  let oa := oa.write (Field.orders orders)
  let ui_data_available := ui_data.isSome
  let oa := oa.write (Field.bool ui_data_available)
  let oa := match ui_data with
    | some u => oa.write (Field.uiData u)
    | none => oa
  (Message.ctor w.heap MessageType.LOAD_GAME.toInt (-1) receiver ModuleType.CORE.toInt
      (c.str oa)).map
    fun (h, m) => ({ w with heap := h }, m)

/-- Overload `ChatMessage(sender, msg)`. -/
def ChatMessage (h : Heap) (sender : Int) (msg : List Char) : Option (Heap × Message) :=
  Message.ctor h MessageType.HUMAN_PLAYER_CHAT.toInt sender (-1) ModuleType.CORE.toInt msg

/-- Overload `ChatMessage(sender, receiver, msg)`. -/
def ChatMessage_to (h : Heap) (sender receiver : Int) (msg : List Char) :
    Option (Heap × Message) :=
  Message.ctor h MessageType.HUMAN_PLAYER_CHAT.toInt sender receiver ModuleType.CORE.toInt msg

/-- Function `PlayerDisconnectedMessage(receiver, player_name)`. -/
def PlayerDisconnectedMessage (h : Heap) (receiver : Int) (player_name : List Char) :
    Option (Heap × Message) :=
  Message.ctor h MessageType.PLAYER_EXIT.toInt (-1) receiver ModuleType.CORE.toInt player_name

/-- Function `PlayerEliminatedMessage(receiver, empire_name)`. -/
def PlayerEliminatedMessage (h : Heap) (receiver : Int) (empire_name : List Char) :
    Option (Heap × Message) :=
  Message.ctor h MessageType.PLAYER_ELIMINATED.toInt (-1) receiver ModuleType.CORE.toInt
    empire_name

/-- Function `LobbyUpdateMessage(sender, lobby_data)`. -/
def LobbyUpdateMessage {D : Domain} (c : Codec D) (w : World) (sender : Int)
    (lobby_data : D.MultiplayerLobbyData) : Option (World × Message) :=
  let oa : OArchive D := []
  let oa := oa.write (Field.lobbyData lobby_data)
  (Message.ctor w.heap MessageType.LOBBY_UPDATE.toInt sender (-1) ModuleType.CORE.toInt
      (c.str oa)).map
    fun (h, m) => ({ w with heap := h }, m)

/-- Function `ServerLobbyUpdateMessage(receiver, lobby_data)`. -/
def ServerLobbyUpdateMessage {D : Domain} (c : Codec D) (w : World) (receiver : Int)
    (lobby_data : D.MultiplayerLobbyData) : Option (World × Message) :=
  let oa : OArchive D := []
  let oa := oa.write (Field.lobbyData lobby_data)
  (Message.ctor w.heap MessageType.LOBBY_UPDATE.toInt (-1) receiver
      ModuleType.CLIENT_LOBBY_MODULE.toInt (c.str oa)).map
    fun (h, m) => ({ w with heap := h }, m)

/-- Function `LobbyChatMessage(sender, receiver, data)`. -/
def LobbyChatMessage (h : Heap) (sender receiver : Int) (data : List Char) :
    Option (Heap × Message) :=
  Message.ctor h MessageType.LOBBY_CHAT.toInt sender receiver ModuleType.CORE.toInt data

/-- Function `ServerLobbyChatMessage(sender, receiver, data)`. -/
def ServerLobbyChatMessage (h : Heap) (sender receiver : Int) (data : List Char) :
    Option (Heap × Message) :=
  Message.ctor h MessageType.LOBBY_CHAT.toInt sender receiver
    ModuleType.CLIENT_LOBBY_MODULE.toInt data

/-- Function `LobbyHostAbortMessage(sender)`. -/
def LobbyHostAbortMessage (h : Heap) (sender : Int) : Option (Heap × Message) :=
  Message.ctor h MessageType.LOBBY_HOST_ABORT.toInt sender (-1) ModuleType.CORE.toInt []

/-- Function `ServerLobbyHostAbortMessage(receiver)`. -/
def ServerLobbyHostAbortMessage (h : Heap) (receiver : Int) : Option (Heap × Message) :=
  Message.ctor h MessageType.LOBBY_HOST_ABORT.toInt (-1) receiver
    ModuleType.CLIENT_LOBBY_MODULE.toInt []

/-- Function `LobbyExitMessage(sender)`. -/
def LobbyExitMessage (h : Heap) (sender : Int) : Option (Heap × Message) :=
  Message.ctor h MessageType.LOBBY_EXIT.toInt sender (-1) ModuleType.CORE.toInt []

/-- Function `ServerLobbyExitMessage(sender, receiver)`. -/
def ServerLobbyExitMessage (h : Heap) (sender receiver : Int) : Option (Heap × Message) :=
  Message.ctor h MessageType.LOBBY_EXIT.toInt sender receiver
    ModuleType.CLIENT_LOBBY_MODULE.toInt []

/-- Function `StartMPGameMessage(player_id)`. -/
def StartMPGameMessage (h : Heap) (player_id : Int) : Option (Heap × Message) :=
  Message.ctor h MessageType.START_MP_GAME.toInt player_id (-1) ModuleType.CORE.toInt []

/-! ## Message data extractors -/

/-- Overload `ExtractMessageData(msg, single_player_game, empire_id, current_turn,
empires, universe)`, the extractor of `GAME_START`; the five out-parameters are
returned. -/
def ExtractMessageData_gameStart {D : Domain} (c : Codec D) (w : World) (msg : Message) :
    Option (World × Bool × Int × Int × D.EmpireManager × D.Universe) := do
  let ia ← openArchive c w msg
  let (single_player_game, ia) ← ia.readBool
  let (empire_id, ia) ← ia.readInt
  let (current_turn, ia) ← ia.readInt
  let w := { w with s_encoding_empire := empire_id }
  let (empires, ia) ← ia.readEmpires
  let (universe_, _) ← ia.readUniverse
  pure (w, single_player_game, empire_id, current_turn, empires, universe_)

/-- Overload `ExtractMessageData(msg, empire_id, current_turn, empires, universe)`,
the extractor of `TURN_UPDATE`; `empire_id` is an input, the three out-parameters
are returned. -/
def ExtractMessageData_turnUpdate {D : Domain} (c : Codec D) (w : World) (msg : Message)
    (empire_id : Int) : Option (World × Int × D.EmpireManager × D.Universe) := do
  let ia ← openArchive c w msg
  let w := { w with s_encoding_empire := empire_id }
  let (current_turn, ia) ← ia.readInt
  let (empires, ia) ← ia.readEmpires
  let (universe_, _) ← ia.readUniverse
  pure (w, current_turn, empires, universe_)

/-- Overload `ExtractMessageData(msg, phase_id, empire_id)`, the extractor of
`TURN_PROGRESS`; the two out-parameters are returned. -/
def ExtractMessageData_turnProgress {D : Domain} (c : Codec D) (w : World) (msg : Message) :
    Option (TurnProgressPhase × Int) := do
  let ia ← openArchive c w msg
  let (phase_id, ia) ← ia.readPhase
  let (empire_id, _) ← ia.readInt
  pure (phase_id, empire_id)

/-- Operator `ia >> lobby_data` for a `MultiplayerLobbyData`. -/
def IArchive.readLobbyData {D : Domain} :
    IArchive D → Option (D.MultiplayerLobbyData × IArchive D)
  | Field.lobbyData d :: rest => some (d, rest)
  | _ => none

/-- Operator `ia >> setup_data` for a `SinglePlayerSetupData`. -/
def IArchive.readSetupData {D : Domain} :
    IArchive D → Option (D.SinglePlayerSetupData × IArchive D)
  | Field.setupData d :: rest => some (d, rest)
  | _ => none

/-- Overload `ExtractMessageData(msg, lobby_data)`; the out-parameter is returned. -/
def ExtractMessageData_lobby {D : Domain} (c : Codec D) (w : World) (msg : Message) :
    Option D.MultiplayerLobbyData := do
  let ia ← openArchive c w msg
  let (lobby_data, _) ← ia.readLobbyData
  pure lobby_data

/-- Overload `ExtractMessageData(msg, setup_data)`; the out-parameter is returned. -/
def ExtractMessageData_setup {D : Domain} (c : Codec D) (w : World) (msg : Message) :
    Option D.SinglePlayerSetupData := do
  let ia ← openArchive c w msg
  let (setup_data, _) ← ia.readSetupData
  pure setup_data

/-- Function `Deserialize(ia, orders)`. -/
def IArchive.readOrders {D : Domain} : IArchive D → Option (D.OrderSet × IArchive D)
  | Field.orders o :: rest => some (o, rest)
  | _ => none

/-- Operator `ia >> ui_data` for a `SaveGameUIData`. -/
def IArchive.readUiData {D : Domain} : IArchive D → Option (D.SaveGameUIData × IArchive D)
  | Field.uiData u :: rest => some (u, rest)
  | _ => none

/-- Overload `ExtractMessageData(msg, orders)`, the extractor of `TURN_ORDERS`; the
out-parameter is returned. -/
def ExtractMessageData_orders {D : Domain} (c : Codec D) (w : World) (msg : Message) :
    Option D.OrderSet := do
  let ia ← openArchive c w msg
  let (orders, _) ← ia.readOrders
  pure orders

/-- Overload `ExtractMessageData(msg, orders, ui_data)`, the extractor of
`CLIENT_SAVE_DATA` and `LOAD_GAME`. `ui_data` is the value the caller's variable
holds at the call; returned are the `bool` result, `orders`, and `ui_data` as
the call leaves it. -/
def ExtractMessageData_saveData {D : Domain} (c : Codec D) (w : World) (msg : Message)
    (ui_data : D.SaveGameUIData) : Option (Bool × D.OrderSet × D.SaveGameUIData) := do
  let ia ← openArchive c w msg
  let (orders, ia) ← ia.readOrders
  let (ui_data_available, ia) ← ia.readBool
  if ui_data_available then
    let (ui_data, _) ← ia.readUiData
    pure (ui_data_available, orders, ui_data)
  else
    pure (ui_data_available, orders, ui_data)

/-- The kinds that the named ctors of `Message.cpp` put into a Message, each
listed once, in the order of their first use in the file. -/
def builderKinds : List MessageType :=
  [.HOST_SP_GAME, .HOST_MP_GAME, .JOIN_GAME, .GAME_START, .RENAME_PLAYER, .END_GAME,
   .TURN_ORDERS, .TURN_PROGRESS, .TURN_UPDATE, .CLIENT_SAVE_DATA, .REQUEST_NEW_OBJECT_ID,
   .DISPATCH_NEW_OBJECT_ID, .SAVE_GAME, .LOAD_GAME, .HUMAN_PLAYER_CHAT, .PLAYER_EXIT,
   .PLAYER_ELIMINATED, .LOBBY_UPDATE, .LOBBY_CHAT, .LOBBY_HOST_ABORT, .LOBBY_EXIT,
   .START_MP_GAME]

/-- The enumerator has an entry in the `GG_ENUM_MAP` of `Message::MessageType`. -/
def MessageType.hasEntry (t : MessageType) : Bool :=
  MessageType.enumMap.any fun e => decide (e.1 = t)

/-! ## Allocation failure -/

/-- What a call ends in: a normal return, or the `std::bad_alloc` that
`new char[]` throws when the allocator refuses the request. -/
inductive Completion where
  | returned
  | bad_alloc
  deriving DecidableEq, Repr

/-- The largest size of an object on the 64-bit platform of the embedding (the
value of `PTRDIFF_MAX`); no allocator grants a request above it. -/
def PTRDIFF_MAX : Nat := 9223372036854775807

/-- The allocator that grants a request exactly when it asks for at most `limit`
bytes. -/
def grantsUpTo (limit n : Nat) : Bool := decide (n ≤ limit)

/-- Operator `new char[n]` with both outcomes. `grants n` tells whether the
allocator grants the request of `n` bytes made by this call: if it does, the
result is the one of `Heap.newArray`; if it does not, `std::bad_alloc` is thrown
(`none`) and the store is as it was. -/
def Heap.newArrayOrThrow (grants : Nat → Bool) (h : Heap) (n : Nat) : Option (Heap × Nat) :=
  if grants n then some (h.newArray n) else none

/-- Member `Message::Resize(size)` with both outcomes: `delete[] m_message_text` is
done first; then `new char[size]` either yields the array that is assigned to
`m_message_text`, or throws, in which case nothing is assigned and
`m_message_text` still holds the address of the released array. Returns the
store, `*this` and how the call ended. -/
def Message.ResizeOrThrow (grants : Nat → Bool) (h : Heap) (self : Message) (size : Nat) :
    Heap × Message × Completion :=
  let h1 := h.deleteArray self.m_message_text
  match h1.newArrayOrThrow grants size with
  | some (h2, p) => (h2, { self with m_message_text := p }, Completion.returned)
  | none => (h1, self, Completion.bad_alloc)

/-! ## Theorems -/

theorem intToSize_sizeToInt_iff (n : Nat) (hn : IsSize n) :
    intToSize (sizeToInt n) = n ↔ (n < 2147483648 ∨ 18446744071562067968 ≤ n) := by
  unfold IsSize at hn
  unfold intToSize sizeToInt
  simp only
  split <;> omega

theorem intToSize_sizeToInt (n : Nat) (hn : n < 2147483648) :
    intToSize (sizeToInt n) = n := by
  unfold intToSize sizeToInt
  simp only
  split <;> omega

theorem sizeToInt_intToSize (v : Int) (hv : IsInt v) : sizeToInt (intToSize v) = v := by
  unfold IsInt at hv
  unfold intToSize sizeToInt
  simp only
  split <;> omega

theorem intToSize_isSize (v : Int) : IsSize (intToSize v) := by
  unfold IsSize intToSize
  omega

theorem sizeToInt_isInt (n : Nat) : IsInt (sizeToInt n) := by
  unfold IsInt sizeToInt
  simp only
  split <;> omega


/-! ### The free store -/

theorem payload2G_length : payload2G.length = 2147483648 :=
  List.length_replicate _ _

theorem Heap.newArray_write (h : Heap) (bytes : List Char) :
    (h.newArray bytes.length).1.write (h.newArray bytes.length).2 bytes
      = some (h.withNew bytes) := by
  unfold Heap.write Heap.newArray Heap.withNew Heap.put
  by_cases hb : bytes = []
  · subst hb
    simp
  · simp only [hb, if_false, if_true, List.length_map, List.length_range, le_refl,
      List.drop_length, List.append_nil]
    congr 1
    congr 1
    funext a
    by_cases ha : a = h.next <;> simp [ha]

theorem Heap.newArray_fst_store (h : Heap) (n a : Nat) :
    (h.newArray n).1.store a
      = if a = h.next then some ((List.range n).map (h.junk h.next)) else h.store a := rfl

theorem Heap.newArray_snd (h : Heap) (n : Nat) : (h.newArray n).2 = h.next := rfl

theorem Heap.newArray_fst_next (h : Heap) (n : Nat) : (h.newArray n).1.next = h.next + 1 := rfl

theorem Heap.withNew_store (h : Heap) (bytes : List Char) (a : Nat) :
    (h.withNew bytes).store a = if a = h.next then some bytes else h.store a := rfl

theorem Heap.read_withNew (h : Heap) (bytes : List Char) :
    (h.withNew bytes).read h.next bytes.length = some bytes := by
  unfold Heap.read
  by_cases hb : bytes = []
  · subst hb; simp
  · have : bytes.length ≠ 0 := by simpa using hb
    simp [this, Heap.withNew_store]

theorem Heap.read_congr (h1 h2 : Heap) (p n : Nat) (hs : h1.store p = h2.store p) :
    h1.read p n = h2.read p n := by
  unfold Heap.read
  rw [hs]

theorem Heap.held_congr (h1 h2 : Heap) (p : Nat) (hs : h1.store p = h2.store p) :
    h1.held p = h2.held p := by
  unfold Heap.held
  rw [hs]

theorem Heap.held_withNew (h : Heap) (bytes : List Char) :
    (h.withNew bytes).held h.next = bytes.length := by
  simp [Heap.held, Heap.withNew_store]

/-- An address at which an array lives is below `next` in a well-formed store. -/
theorem Heap.WF.lt_next {h : Heap} (hw : h.WF) {p : Nat} {b : List Char}
    (hp : h.store p = some b) : p < h.next := by
  by_contra hlt
  have := hw.2.2 p (Nat.le_of_not_lt hlt)
  rw [this] at hp
  exact Option.noConfusion hp

theorem Heap.WF.withNew {h : Heap} (hw : h.WF) (bytes : List Char) : (h.withNew bytes).WF := by
  obtain ⟨h0, hz, hf⟩ := hw
  refine ⟨Nat.succ_pos _, ?_, ?_⟩
  · rw [Heap.withNew_store]
    have : (0 : Nat) ≠ h.next := by omega
    simp [this, hz]
  · intro a ha
    rw [Heap.withNew_store]
    have h1 : h.next + 1 ≤ a := ha
    have : a ≠ h.next := by omega
    simp [this]
    exact hf a (by omega)

theorem Heap.empty_WF : Heap.empty.WF := ⟨Nat.one_pos, rfl, fun _ _ => rfl⟩

/-! ### Constructors -/

theorem Message.ctor_eq (h : Heap) (t s r m : Int) (text : List Char) :
    Message.ctor h t s r m text
      = some (h.withNew text,
          { m_type := t, m_sending_player := s, m_receiving_player := r,
            m_receiving_module := m, m_message_size := text.length,
            m_message_text := h.next }) := by
  unfold Message.ctor
  have := Heap.newArray_write h text
  simp only [Heap.newArray_snd] at this
  simp only [Heap.newArray_snd, this, Option.map_some']


/-! ### Header codec -/

theorem HeaderToBuffer_zero (e : Message) (buf : HeaderBuf) :
    HeaderToBuffer e buf 0 = e.Type_ := by
  simp [HeaderToBuffer, HeaderBuf.set]

theorem HeaderToBuffer_one (e : Message) (buf : HeaderBuf) :
    HeaderToBuffer e buf 1 = e.SendingPlayer := by
  simp [HeaderToBuffer, HeaderBuf.set]

theorem HeaderToBuffer_two (e : Message) (buf : HeaderBuf) :
    HeaderToBuffer e buf 2 = e.ReceivingPlayer := by
  simp [HeaderToBuffer, HeaderBuf.set]

theorem HeaderToBuffer_three (e : Message) (buf : HeaderBuf) :
    HeaderToBuffer e buf 3 = e.ReceivingModule := by
  simp [HeaderToBuffer, HeaderBuf.set]

theorem HeaderToBuffer_four (e : Message) (buf : HeaderBuf) :
    HeaderToBuffer e buf 4 = sizeToInt e.Size := by
  simp [HeaderToBuffer, HeaderBuf.set]

theorem HeaderToBuffer_beyond (e : Message) (buf : HeaderBuf) (i : Nat) (hi : 5 ≤ i) :
    HeaderToBuffer e buf i = buf i := by
  have h0 : i ≠ 0 := by omega
  have h1 : i ≠ 1 := by omega
  have h2 : i ≠ 2 := by omega
  have h3 : i ≠ 3 := by omega
  have h4 : i ≠ 4 := by omega
  simp [HeaderToBuffer, HeaderBuf.set, h0, h1, h2, h3, h4]

theorem BufferToHeader_Type_ (hb : HeaderBuf) (m : Message) :
    (BufferToHeader hb m).Type_ = hb 0 := rfl

theorem BufferToHeader_SendingPlayer (hb : HeaderBuf) (m : Message) :
    (BufferToHeader hb m).SendingPlayer = hb 1 := rfl

theorem BufferToHeader_ReceivingPlayer (hb : HeaderBuf) (m : Message) :
    (BufferToHeader hb m).ReceivingPlayer = hb 2 := rfl

theorem BufferToHeader_ReceivingModule (hb : HeaderBuf) (m : Message) :
    (BufferToHeader hb m).ReceivingModule = hb 3 := rfl

theorem BufferToHeader_Size (hb : HeaderBuf) (m : Message) :
    (BufferToHeader hb m).Size = intToSize (hb 4) := rfl

theorem BufferToHeader_Data (hb : HeaderBuf) (m : Message) :
    (BufferToHeader hb m).Data = m.Data := rfl

theorem Message.Size_mk (t s r m : Int) (n p : Nat) : (Message.mk t s r m n p).Size = n := rfl

theorem sizeToInt_two_pow_31 : sizeToInt 2147483648 = -2147483648 := by
  unfold sizeToInt; norm_num

theorem intToSize_neg_two_pow_31 : intToSize (-2147483648) = 18446744071562067968 := by
  unfold intToSize; omega

/-- C1, as amended: for every Message `e`, buffer and target Message `m`,
`HeaderToBuffer(e, buf)` followed by `BufferToHeader(buf, m)` gives `m` the
`Type()`, `SendingPlayer()`, `ReceivingPlayer()` and `ReceivingModule()` of `e`;
it gives `m` the `Size()` of `e` exactly when that `Size()` survives the
conversion to `int` and back, that is when it is below `2^31` or at least
`2^64 - 2^31`. In particular the five values are reproduced for every payload
of fewer than `2^31` bytes. -/
theorem header_roundtrip_iff_size_fits_int (e m : Message) (buf : HeaderBuf)
    (hsize : IsSize e.Size) :
    (BufferToHeader (HeaderToBuffer e buf) m).Type_ = e.Type_ ∧
    (BufferToHeader (HeaderToBuffer e buf) m).SendingPlayer = e.SendingPlayer ∧
    (BufferToHeader (HeaderToBuffer e buf) m).ReceivingPlayer = e.ReceivingPlayer ∧
    (BufferToHeader (HeaderToBuffer e buf) m).ReceivingModule = e.ReceivingModule ∧
    ((BufferToHeader (HeaderToBuffer e buf) m).Size = e.Size ↔
      (e.Size < 2147483648 ∨ 18446744071562067968 ≤ e.Size)) := by
  rw [BufferToHeader_Type_, BufferToHeader_SendingPlayer, BufferToHeader_ReceivingPlayer,
    BufferToHeader_ReceivingModule, BufferToHeader_Size, HeaderToBuffer_zero,
    HeaderToBuffer_one, HeaderToBuffer_two, HeaderToBuffer_three, HeaderToBuffer_four]
  exact ⟨rfl, rfl, rfl, rfl, intToSize_sizeToInt_iff e.Size hsize⟩

/-- Witness of C1 as amended: the header of a chat Message of five bytes. -/
theorem header_roundtrip_iff_size_fits_int_witness :
    (BufferToHeader
        (HeaderToBuffer ⟨21, 3, -1, 0, 5, 1⟩ (HeaderBuf.of 0 0 0 0 0)) Message.ctorDefault).Size
      = (⟨21, 3, -1, 0, 5, 1⟩ : Message).Size :=
  (header_roundtrip_iff_size_fits_int ⟨21, 3, -1, 0, 5, 1⟩ Message.ctorDefault
    (HeaderBuf.of 0 0 0 0 0) (by norm_num [IsSize, Message.Size])).2.2.2.2.2
      (Or.inl (by norm_num [Message.Size]))

/-- C1 fails as stated: the Message constructed from a payload of `2^31` bytes
has `Size() = 2147483648`; its header slot 4 is `-2147483648`, and reading that
header back gives `Size() = 18446744071562067968`. -/
theorem header_roundtrip_fails_at_two_pow_31 :
    ∃ h e, Message.ctor Heap.empty MessageType.DEBUG.toInt 1 2 ModuleType.CORE.toInt
        payload2G = some (h, e) ∧
      e.Size = 2147483648 ∧
      HeaderToBuffer e (HeaderBuf.of 0 0 0 0 0) 4 = -2147483648 ∧
      (BufferToHeader (HeaderToBuffer e (HeaderBuf.of 0 0 0 0 0)) Message.ctorDefault).Size
        = 18446744071562067968 ∧
      (BufferToHeader (HeaderToBuffer e (HeaderBuf.of 0 0 0 0 0)) Message.ctorDefault).Size
        ≠ e.Size := by
  have hs : ∀ t s r m p, (Message.mk t s r m payload2G.length p).Size = 2147483648 := by
    intro t s r m p
    rw [Message.Size_mk]
    exact payload2G_length
  refine ⟨_, _, Message.ctor_eq _ _ _ _ _ _, hs _ _ _ _ _, ?_, ?_, ?_⟩
  · rw [HeaderToBuffer_four, hs, sizeToInt_two_pow_31]
  · rw [BufferToHeader_Size, HeaderToBuffer_four, hs, sizeToInt_two_pow_31,
      intToSize_neg_two_pow_31]
  · rw [BufferToHeader_Size, HeaderToBuffer_four, hs, sizeToInt_two_pow_31,
      intToSize_neg_two_pow_31]
    norm_num


theorem sizeToInt_of_lt (n : Nat) (hn : n < 2147483648) : sizeToInt n = (n : Int) := by
  unfold sizeToInt
  simp only
  split <;> omega

theorem intToSize_of_nonneg (v : Int) (h0 : 0 ≤ v) (hv : IsInt v) :
    ((intToSize v : Nat) : Int) = v := by
  unfold IsInt at hv
  unfold intToSize
  omega

/-! ### Construction, header layout and equality -/

/-- C6: for every kind `t`, sender `s`, receiver `r`, module `m` and byte string
`p` (the empty one and those with NUL bytes included), in every store the
constructor `Message(t, s, r, m, p)` completes and the Message has `Type() = t`,
`SendingPlayer() = s`, `ReceivingPlayer() = r`, `ReceivingModule() = m`,
`Size() = p.size()` and `Text() = p`; the payload is stored as given. -/
theorem ctor_accessors (h : Heap) (t s r m : Int) (p : List Char) :
    ∃ h1 msg, Message.ctor h t s r m p = some (h1, msg) ∧
      msg.Type_ = t ∧ msg.SendingPlayer = s ∧ msg.ReceivingPlayer = r ∧
      msg.ReceivingModule = m ∧ msg.Size = p.length ∧ msg.Text h1 = some p ∧
      h1.store msg.Data = some p := by
  refine ⟨_, _, Message.ctor_eq h t s r m p, rfl, rfl, rfl, rfl, rfl, ?_, ?_⟩
  · exact Heap.read_withNew h p
  · simp [Message.Data, Heap.withNew_store]

/-- C8: for every Message `e` and buffer, `HeaderToBuffer(e, buf)` writes slots 0
to 4, in the order kind, sender, receiver, module, payload length (`Size()`
converted to `int`, which is `Size()` itself below `2^31`), and no other slot;
the five slots are the same for any two Messages that agree on these five
accessors, whatever their payload storage and whatever the buffer held. The
Message is a `const` reference: the function returns the buffer only. -/
theorem headerToBuffer_layout (e : Message) (buf : HeaderBuf) :
    HeaderToBuffer e buf 0 = e.Type_ ∧
    HeaderToBuffer e buf 1 = e.SendingPlayer ∧
    HeaderToBuffer e buf 2 = e.ReceivingPlayer ∧
    HeaderToBuffer e buf 3 = e.ReceivingModule ∧
    HeaderToBuffer e buf 4 = sizeToInt e.Size ∧
    (e.Size < 2147483648 → HeaderToBuffer e buf 4 = (e.Size : Int)) ∧
    (∀ i, 5 ≤ i → HeaderToBuffer e buf i = buf i) ∧
    (∀ (e2 : Message) (buf2 : HeaderBuf), e2.Type_ = e.Type_ →
      e2.SendingPlayer = e.SendingPlayer → e2.ReceivingPlayer = e.ReceivingPlayer →
      e2.ReceivingModule = e.ReceivingModule → e2.Size = e.Size →
      ∀ i, i < 5 → HeaderToBuffer e2 buf2 i = HeaderToBuffer e buf i) := by
  refine ⟨HeaderToBuffer_zero e buf, HeaderToBuffer_one e buf, HeaderToBuffer_two e buf,
    HeaderToBuffer_three e buf, HeaderToBuffer_four e buf, ?_,
    fun i hi => HeaderToBuffer_beyond e buf i hi, ?_⟩
  · intro hlt
    rw [HeaderToBuffer_four, sizeToInt_of_lt _ hlt]
  · intro e2 buf2 h0 h1 h2 h3 h4 i hi
    have hcases : i = 0 ∨ i = 1 ∨ i = 2 ∨ i = 3 ∨ i = 4 := by omega
    rcases hcases with rfl | rfl | rfl | rfl | rfl
    · rw [HeaderToBuffer_zero, HeaderToBuffer_zero, h0]
    · rw [HeaderToBuffer_one, HeaderToBuffer_one, h1]
    · rw [HeaderToBuffer_two, HeaderToBuffer_two, h2]
    · rw [HeaderToBuffer_three, HeaderToBuffer_three, h3]
    · rw [HeaderToBuffer_four, HeaderToBuffer_four, h4]

/-- Witness of C8: a chat Message of five bytes, written over a buffer of 9s, and
a second Message with the same five values but other payload storage. -/
theorem headerToBuffer_layout_witness :
    HeaderToBuffer ⟨21, 3, -1, 0, 5, 1⟩ (HeaderBuf.of 9 9 9 9 9) 4 = ((5 : Nat) : Int) ∧
    HeaderToBuffer ⟨21, 3, -1, 0, 5, 2⟩ (HeaderBuf.of 0 0 0 0 0) 0
      = HeaderToBuffer ⟨21, 3, -1, 0, 5, 1⟩ (HeaderBuf.of 9 9 9 9 9) 0 :=
  ⟨(headerToBuffer_layout ⟨21, 3, -1, 0, 5, 1⟩ (HeaderBuf.of 9 9 9 9 9)).2.2.2.2.2.1
      (by norm_num [Message.Size]),
   (headerToBuffer_layout ⟨21, 3, -1, 0, 5, 1⟩ (HeaderBuf.of 9 9 9 9 9)).2.2.2.2.2.2.2
      ⟨21, 3, -1, 0, 5, 2⟩ (HeaderBuf.of 0 0 0 0 0) rfl rfl rfl rfl rfl 0 (by norm_num)⟩

/-- C8 fails as stated: the Message constructed from a payload of `2^31` bytes
has `Size() = 2147483648`, and `HeaderToBuffer` writes `-2147483648` to slot 4, which
is not its payload length. -/
theorem headerToBuffer_slot4_differs_at_two_pow_31 :
    ∃ h e, Message.ctor Heap.empty MessageType.DEBUG.toInt 1 2 ModuleType.CORE.toInt
        payload2G = some (h, e) ∧
      e.Size = 2147483648 ∧
      HeaderToBuffer e (HeaderBuf.of 0 0 0 0 0) 4 = -2147483648 ∧
      HeaderToBuffer e (HeaderBuf.of 0 0 0 0 0) 4 ≠ ((e.Size : Nat) : Int) := by
  have hs : ∀ t s r m p, (Message.mk t s r m payload2G.length p).Size = 2147483648 := by
    intro t s r m p
    rw [Message.Size_mk]
    exact payload2G_length
  refine ⟨_, _, Message.ctor_eq _ _ _ _ _ _, hs _ _ _ _ _, ?_, ?_⟩
  · rw [HeaderToBuffer_four, hs, sizeToInt_two_pow_31]
  · rw [HeaderToBuffer_four, hs, sizeToInt_two_pow_31]
    omega

/-- C9: for every header `hb`, Message `m` and store `h`, `BufferToHeader(hb, m)`
sets kind, sender, receiver and module to slots 0 to 3 and `Size()` to slot 4
converted to `std::size_t` (slot 4 itself when it is a non-negative `int`); the
payload pointer, the bytes behind it and the amount of storage held are as
before (the store is no argument of the function). -/
theorem bufferToHeader_frame (hb : HeaderBuf) (m : Message) (h : Heap) :
    (BufferToHeader hb m).Type_ = hb 0 ∧
    (BufferToHeader hb m).SendingPlayer = hb 1 ∧
    (BufferToHeader hb m).ReceivingPlayer = hb 2 ∧
    (BufferToHeader hb m).ReceivingModule = hb 3 ∧
    (BufferToHeader hb m).Size = intToSize (hb 4) ∧
    (0 ≤ hb 4 → IsInt (hb 4) → (((BufferToHeader hb m).Size : Nat) : Int) = hb 4) ∧
    (BufferToHeader hb m).Data = m.Data ∧
    h.store (BufferToHeader hb m).Data = h.store m.Data ∧
    h.held (BufferToHeader hb m).Data = h.held m.Data := by
  refine ⟨rfl, rfl, rfl, rfl, rfl, ?_, rfl, rfl, rfl⟩
  intro h0 hv
  rw [BufferToHeader_Size]
  exact intToSize_of_nonneg _ h0 hv

/-- Witness of C9: the header `{21, 3, -1, 0, 5}` read into a default Message. -/
theorem bufferToHeader_frame_witness :
    (((BufferToHeader (HeaderBuf.of 21 3 (-1) 0 5) Message.ctorDefault).Size : Nat) : Int)
      = HeaderBuf.of 21 3 (-1) 0 5 4 :=
  (bufferToHeader_frame (HeaderBuf.of 21 3 (-1) 0 5) Message.ctorDefault Heap.empty).2.2.2.2.2.1
    (by decide) (by decide)

/-- C5: in every store and for all Messages `a` and `b`, `a == b` is true exactly
when `Type()`, `SendingPlayer()`, `ReceivingPlayer()`, `ReceivingModule()` agree
and `Text()` is the same byte sequence for both, and `a != b` is the negation
of `a == b`; when both texts are readable, `a == b` and `a != b` return the
truth value of that conjunction and of its negation. -/
theorem eq_iff_fields_and_text (h : Heap) (a b : Message) :
    (Message.eq h a b = some true ↔
      (a.Type_ = b.Type_ ∧ a.SendingPlayer = b.SendingPlayer ∧
        a.ReceivingPlayer = b.ReceivingPlayer ∧ a.ReceivingModule = b.ReceivingModule ∧
        ∃ t, a.Text h = some t ∧ b.Text h = some t)) ∧
    (∀ ta tb, a.Text h = some ta → b.Text h = some tb →
      Message.eq h a b = some (decide (a.Type_ = b.Type_ ∧ a.SendingPlayer = b.SendingPlayer ∧
        a.ReceivingPlayer = b.ReceivingPlayer ∧ a.ReceivingModule = b.ReceivingModule ∧
        ta = tb)) ∧
      Message.ne h a b = some (!decide (a.Type_ = b.Type_ ∧
        a.SendingPlayer = b.SendingPlayer ∧ a.ReceivingPlayer = b.ReceivingPlayer ∧
        a.ReceivingModule = b.ReceivingModule ∧ ta = tb))) ∧
    Message.ne h a b = (Message.eq h a b).map (fun r => !r) := by
  refine ⟨?_, ?_, rfl⟩
  · unfold Message.eq
    by_cases hf : a.Type_ = b.Type_ ∧ a.SendingPlayer = b.SendingPlayer ∧
        a.ReceivingPlayer = b.ReceivingPlayer ∧ a.ReceivingModule = b.ReceivingModule
    · rw [if_pos hf]
      obtain ⟨h1, h2, h3, h4⟩ := hf
      cases hta : a.Text h with
      | none => simp
      | some ta =>
        cases htb : b.Text h with
        | none => simp
        | some tb =>
          simp [h1, h2, h3, h4]
          exact eq_comm
    · rw [if_neg hf]
      constructor
      · intro hh
        cases hh
      · intro hh
        exact absurd ⟨hh.1, hh.2.1, hh.2.2.1, hh.2.2.2.1⟩ hf
  · intro ta tb hta htb
    unfold Message.ne Message.eq
    by_cases hf : a.Type_ = b.Type_ ∧ a.SendingPlayer = b.SendingPlayer ∧
        a.ReceivingPlayer = b.ReceivingPlayer ∧ a.ReceivingModule = b.ReceivingModule
    · rw [if_pos hf, hta, htb]
      obtain ⟨h1, h2, h3, h4⟩ := hf
      simp [h1, h2, h3, h4]
    · rw [if_neg hf]
      have hd : ¬ (a.Type_ = b.Type_ ∧ a.SendingPlayer = b.SendingPlayer ∧
          a.ReceivingPlayer = b.ReceivingPlayer ∧ a.ReceivingModule = b.ReceivingModule ∧
          ta = tb) := fun hh => hf ⟨hh.1, hh.2.1, hh.2.2.1, hh.2.2.2.1⟩
      simp [hd]


/-- Witness of C5: two chat Messages with the payload `hi`. -/
theorem eq_iff_fields_and_text_witness :
    Message.eq (Heap.empty.withNew ['h', 'i']) ⟨21, 3, -1, 0, 2, 1⟩ ⟨21, 3, -1, 0, 2, 1⟩
      = some true :=
  ((eq_iff_fields_and_text (Heap.empty.withNew ['h', 'i']) ⟨21, 3, -1, 0, 2, 1⟩
    ⟨21, 3, -1, 0, 2, 1⟩).2.1 ['h', 'i'] ['h', 'i'] rfl rfl).1

/-! ### Copying -/

theorem Heap.read_length {h : Heap} {p n : Nat} {t : List Char} (hr : h.read p n = some t) :
    t.length = n := by
  unfold Heap.read at hr
  by_cases hn : n = 0
  · rw [if_pos hn] at hr
    cases hr
    exact hn.symm
  · rw [if_neg hn] at hr
    cases hs : h.store p with
    | none => rw [hs] at hr; exact Option.noConfusion hr
    | some b =>
      rw [hs] at hr
      simp only at hr
      by_cases hle : n ≤ b.length
      · rw [if_pos hle] at hr
        cases hr
        simp [List.length_take, hle]
      · rw [if_neg hle] at hr
        exact Option.noConfusion hr

theorem Heap.read_of_store_eq {h1 h2 : Heap} {p n : Nat}
    (hs : n ≠ 0 → h1.store p = h2.store p) : h1.read p n = h2.read p n := by
  unfold Heap.read
  by_cases hn : n = 0
  · simp [hn]
  · rw [hs hn]

/-- A readable range of positive length lies in an array that lives below `next`. -/
theorem Heap.WF.ne_next_of_read {h : Heap} (hw : h.WF) {p n : Nat} {t : List Char}
    (hr : h.read p n = some t) (hn : n ≠ 0) : p ≠ h.next := by
  unfold Heap.read at hr
  rw [if_neg hn] at hr
  cases hs : h.store p with
  | none => rw [hs] at hr; exact Option.noConfusion hr
  | some b => exact Nat.ne_of_lt (hw.lt_next hs)

theorem Message.copy_eq {h : Heap} (hw : h.WF) {m : Message} {t : List Char}
    (ht : m.Text h = some t) :
    Message.copy h m = some (h.withNew t, { m with m_message_text := h.next }) := by
  have hlen : t.length = m.m_message_size := Heap.read_length ht
  have hread : (h.newArray m.m_message_size).1.read m.m_message_text m.m_message_size
      = some t := by
    rw [← ht]
    unfold Message.Text
    apply Heap.read_of_store_eq
    intro hn
    rw [Heap.newArray_fst_store, if_neg (hw.ne_next_of_read ht hn)]
  unfold Message.copy
  simp only [hread, Option.some_bind, Heap.newArray_snd]
  have hwrite := Heap.newArray_write h t
  rw [hlen] at hwrite
  simp only [Heap.newArray_snd] at hwrite
  rw [hwrite]
  rfl


/-! ### Resizing and refilling -/

theorem Heap.deleteArray_next (h : Heap) (p : Nat) : (h.deleteArray p).next = h.next := by
  unfold Heap.deleteArray Heap.put
  split <;> rfl

theorem Heap.deleteArray_store_of_ne (h : Heap) (p a : Nat) (ha : a ≠ p) :
    (h.deleteArray p).store a = h.store a := by
  unfold Heap.deleteArray Heap.put
  split
  · rfl
  · simp [ha]

theorem Heap.deleteArray_null (h : Heap) : h.deleteArray 0 = h := by
  simp [Heap.deleteArray]

theorem Message.Resize_snd (h : Heap) (c : Message) (n : Nat) :
    (Message.Resize h c n).2 = { c with m_message_text := h.next } := by
  simp [Message.Resize, Heap.newArray, Heap.deleteArray_next]

theorem Message.Resize_fst_next (h : Heap) (c : Message) (n : Nat) :
    (Message.Resize h c n).1.next = h.next + 1 := by
  simp [Message.Resize, Heap.newArray, Heap.deleteArray_next]

theorem Message.Resize_fst_store_new (h : Heap) (c : Message) (n : Nat) :
    (Message.Resize h c n).1.store h.next = some ((List.range n).map (h.junk h.next)) := by
  have hj : (h.deleteArray c.m_message_text).junk = h.junk := by
    unfold Heap.deleteArray Heap.put
    split <;> rfl
  simp [Message.Resize, Heap.newArray, Heap.deleteArray_next, hj]

theorem Message.Resize_fst_store_of_ne (h : Heap) (c : Message) (n a : Nat)
    (h1 : a ≠ h.next) (h2 : a ≠ c.Data) :
    (Message.Resize h c n).1.store a = h.store a := by
  simp [Message.Resize, Heap.newArray, Heap.deleteArray_next, h1]
  exact Heap.deleteArray_store_of_ne h _ a h2

theorem Message.Resize_held (h : Heap) (c : Message) (n : Nat) :
    (Message.Resize h c n).1.held (Message.Resize h c n).2.Data = n := by
  rw [Message.Resize_snd]
  show (Message.Resize h c n).1.held h.next = n
  unfold Heap.held
  rw [Message.Resize_fst_store_new]
  simp

theorem Message.refill_frame (h : Heap) (c : Message) (n : Nat) (bytes : List Char)
    (hle : bytes.length ≤ n) :
    ∃ h2, Message.refill h c n bytes = some (h2, { c with m_message_text := h.next }) ∧
      (∀ a, a ≠ h.next → a ≠ c.Data → h2.store a = h.store a) ∧
      h2.read h.next bytes.length = some bytes ∧ h2.held h.next = n := by
  unfold Message.refill
  simp only [Message.Resize_snd, Message.Data]
  unfold Heap.write
  by_cases hb : bytes = []
  · subst hb
    refine ⟨(Message.Resize h c n).1, by simp, ?_, by simp [Heap.read], ?_⟩
    · intro a h1 h2
      exact Message.Resize_fst_store_of_ne h c n a h1 h2
    · have := Message.Resize_held h c n
      rw [Message.Resize_snd] at this
      exact this
  · rw [if_neg hb, Message.Resize_fst_store_new]
    simp only [List.length_map, List.length_range, hle, if_true, Option.map_some']
    refine ⟨_, rfl, ?_, ?_, ?_⟩
    · intro a h1 h2
      simp only [Heap.put, h1, if_false]
      exact Message.Resize_fst_store_of_ne h c n a h1 h2
    · have hne : bytes.length ≠ 0 := by simpa using hb
      simp [Heap.read, Heap.put, hne]
    · simp [Heap.held, Heap.put]
      omega


/-! ### Deep-copy isolation -/

theorem Message.independentCopy_intro {h h1 : Heap} {m : Message} {t : List Char} {p : Nat}
    (ht : m.Text h = some t) (hs : h1.store m.Data = h.store m.Data)
    (hct : h1.read p m.Size = some t) (hne : m.Data ≠ p) (hnx : m.Data ≠ h1.next) :
    Message.IndependentCopy h m t h1 { m with m_message_text := p } := by
  have hmt : m.Text h1 = some t := by
    rw [← ht]
    exact Heap.read_congr h1 h _ _ hs
  refine ⟨?_, hmt, hs, ?_⟩
  · unfold Message.eq
    have hc : Message.Text h1 { m with m_message_text := p } = some t := hct
    rw [hc, hmt]
    simp [Message.Type_, Message.SendingPlayer, Message.ReceivingPlayer,
      Message.ReceivingModule]
  · intro n bytes hle
    obtain ⟨h2, hre, hframe, hrd, _⟩ :=
      Message.refill_frame h1 { m with m_message_text := p } n bytes hle
    refine ⟨h2, _, hre, hrd, ?_, ?_⟩
    · have hst : h2.store m.Data = h1.store m.Data := hframe m.Data hnx hne
      rw [← hmt]
      exact Heap.read_congr h2 h1 _ _ hst
    · rw [hframe m.Data hnx hne, hs]

theorem Message.copy_some {h h1 : Heap} {rhs c : Message}
    (hc : Message.copy h rhs = some (h1, c)) :
    ∃ bytes : List Char, bytes.length = rhs.m_message_size ∧ h1 = h.withNew bytes ∧
      c = { rhs with m_message_text := h.next } := by
  unfold Message.copy at hc
  simp only [Heap.newArray_snd] at hc
  cases hr : (h.newArray rhs.m_message_size).1.read rhs.m_message_text rhs.m_message_size with
  | none => rw [hr] at hc; exact Option.noConfusion hc
  | some bytes =>
    have hlen := Heap.read_length hr
    rw [hr] at hc
    have hwrite := Heap.newArray_write h bytes
    rw [hlen] at hwrite
    simp only [Heap.newArray_snd] at hwrite
    simp only [Option.some_bind, hwrite, Option.map_some', Option.some.injEq,
      Prod.mk.injEq] at hc
    exact ⟨bytes, hlen, hc.1.symm, hc.2.symm⟩

theorem Message.assign_eq (h : Heap) (self rhs : Message) :
    Message.assign h self rhs
      = (Message.copy h rhs).map fun x => (x.1.deleteArray self.m_message_text, x.2) := by
  unfold Message.assign
  cases Message.copy h rhs with
  | none => rfl
  | some x => rfl

/-- C7: for every well-formed store, every Message `m` whose storage pointer is
null or was handed out by `new`, and whose `Text()` is readable, the copy
constructor completes and so does `operator=` into any other Message `c0` (one
that does not share the storage of `m`); the copy `c` satisfies `c == m`, making
it leaves the text and the storage of `m` as they were, and so does every later
`c.Resize(n)` followed by a write through `c.Data()`. The other accessors of `m`
read members of `m`, which no operation on `c` is given. -/
theorem deep_copy_isolation (h : Heap) (m : Message) (t : List Char)
    (hw : h.WF) (hown : m.Data < h.next) (ht : m.Text h = some t) :
    (∃ h1 c, Message.copy h m = some (h1, c) ∧ Message.IndependentCopy h m t h1 c) ∧
    (∀ c0 : Message, c0.Data < h.next → (c0.Data = 0 ∨ c0.Data ≠ m.Data) →
      ∃ h1 c, Message.assign h c0 m = some (h1, c) ∧ Message.IndependentCopy h m t h1 c) := by
  have hlen : t.length = m.Size := Heap.read_length ht
  have hmne : m.Data ≠ h.next := Nat.ne_of_lt hown
  have hstore : (h.withNew t).store m.Data = h.store m.Data := by
    rw [Heap.withNew_store, if_neg hmne]
  have hread : (h.withNew t).read h.next m.Size = some t := by
    rw [← hlen]
    exact Heap.read_withNew h t
  have hnx : m.Data ≠ (h.withNew t).next := by
    show m.Data ≠ h.next + 1
    omega
  constructor
  · exact ⟨_, _, Message.copy_eq hw ht,
      Message.independentCopy_intro ht hstore hread hmne hnx⟩
  · intro c0 hc0 hdis
    refine ⟨(h.withNew t).deleteArray c0.m_message_text, { m with m_message_text := h.next },
      ?_, ?_⟩
    · rw [Message.assign_eq, Message.copy_eq hw ht]
      rfl
    · have hc0ne : h.next ≠ c0.m_message_text := (Nat.ne_of_lt hc0).symm
      have hst1 : ((h.withNew t).deleteArray c0.m_message_text).store m.Data
          = h.store m.Data := by
        rcases hdis with hz | hd
        · have hz2 : c0.m_message_text = 0 := hz
          rw [hz2, Heap.deleteArray_null]
          exact hstore
        · have hd2 : m.Data ≠ c0.m_message_text := fun hh => hd hh.symm
          rw [Heap.deleteArray_store_of_ne _ _ _ hd2]
          exact hstore
      have hrd1 : ((h.withNew t).deleteArray c0.m_message_text).read h.next m.Size
          = some t := by
        rw [← hread]
        exact Heap.read_congr _ _ _ _ (Heap.deleteArray_store_of_ne _ _ _ hc0ne)
      have hnx1 : m.Data ≠ ((h.withNew t).deleteArray c0.m_message_text).next := by
        rw [Heap.deleteArray_next]
        exact hnx
      exact Message.independentCopy_intro ht hst1 hrd1 hmne hnx1

/-- Witness of C7: the chat Message with payload `ab`, the only array of its store. -/
theorem deep_copy_isolation_witness :
    ∃ h1 c, Message.copy (Heap.empty.withNew ['a', 'b']) ⟨21, 3, -1, 0, 2, 1⟩ = some (h1, c) ∧
      Message.IndependentCopy (Heap.empty.withNew ['a', 'b']) ⟨21, 3, -1, 0, 2, 1⟩ ['a', 'b']
        h1 c :=
  (deep_copy_isolation (Heap.empty.withNew ['a', 'b']) ⟨21, 3, -1, 0, 2, 1⟩ ['a', 'b']
    (Heap.empty_WF.withNew _) (by decide) rfl).1


/-! ### Resizing with a refusable allocation -/

theorem Message.ResizeOrThrow_granted (grants : Nat → Bool) (h : Heap) (m : Message) (n : Nat)
    (hg : grants n = true) :
    Message.ResizeOrThrow grants h m n
      = ((Message.Resize h m n).1, (Message.Resize h m n).2, Completion.returned) := by
  simp [Message.ResizeOrThrow, Heap.newArrayOrThrow, Message.Resize, hg]

theorem Message.ResizeOrThrow_refused (grants : Nat → Bool) (h : Heap) (m : Message) (n : Nat)
    (hg : grants n = false) :
    Message.ResizeOrThrow grants h m n
      = (h.deleteArray m.m_message_text, m, Completion.bad_alloc) := by
  simp [Message.ResizeOrThrow, Heap.newArrayOrThrow, hg]

theorem Message.ResizeOrThrow_completion (grants : Nat → Bool) (h : Heap) (m : Message)
    (n : Nat) :
    (Message.ResizeOrThrow grants h m n).2.2 = Completion.returned ↔ grants n = true := by
  cases hg : grants n with
  | true => rw [Message.ResizeOrThrow_granted grants h m n hg]; simp
  | false => rw [Message.ResizeOrThrow_refused grants h m n hg]; simp

/-- However `Resize` ends, it touches no array other than the one the Message
held and the one it is given. -/
theorem Message.ResizeOrThrow_frame (grants : Nat → Bool) (h : Heap) (c : Message) (n a : Nat)
    (h1 : a ≠ h.next) (h2 : a ≠ c.Data) :
    (Message.ResizeOrThrow grants h c n).1.store a = h.store a := by
  cases hg : grants n with
  | true =>
    rw [Message.ResizeOrThrow_granted grants h c n hg]
    exact Message.Resize_fst_store_of_ne h c n a h1 h2
  | false =>
    rw [Message.ResizeOrThrow_refused grants h c n hg]
    exact Heap.deleteArray_store_of_ne h _ a h2

theorem grantsUpTo_eq_true (limit n : Nat) : grantsUpTo limit n = true ↔ n ≤ limit := by
  simp [grantsUpTo]

theorem grantsUpTo_eq_false (limit n : Nat) : grantsUpTo limit n = false ↔ limit < n := by
  simp [grantsUpTo]

/-! ### The payload-length invariant -/

theorem intToSize_natCast (n : Nat) (hn : IsSize n) : intToSize (n : Int) = n := by
  unfold IsSize at hn
  unfold intToSize
  omega

/-- C3, as amended: `BufferToHeader` validates nothing. For every header and
Message it completes normally, never with `HeaderMalformed`, and the Message
then has `Type()` equal to slot 0 and `ReceivingModule()` equal to slot 3,
whether or not an enumerator has that value. -/
theorem decodeHeader_never_fails (hb : HeaderBuf) (m : Message) :
    DecodeHeader hb m = Except.ok (BufferToHeader hb m) ∧
    DecodeHeader hb m ≠ Except.error HeaderError.HeaderMalformed ∧
    (BufferToHeader hb m).Type_ = hb 0 ∧
    (BufferToHeader hb m).ReceivingModule = hb 3 := by
  refine ⟨rfl, ?_, rfl, rfl⟩
  intro hh
  cases hh

/-- C3 fails as stated: 1000 is the value of no `MessageType` enumerator, and
`BufferToHeader` of the header `{1000, 0, 0, 0, 0}` completes without
`HeaderMalformed` and yields a Message whose `Type()` is 1000. -/
theorem decodeHeader_accepts_kind_1000 :
    (∀ t : MessageType, t.toInt ≠ 1000) ∧
    DecodeHeader (HeaderBuf.of 1000 0 0 0 0) Message.ctorDefault
      = Except.ok (BufferToHeader (HeaderBuf.of 1000 0 0 0 0) Message.ctorDefault) ∧
    DecodeHeader (HeaderBuf.of 1000 0 0 0 0) Message.ctorDefault
      ≠ Except.error HeaderError.HeaderMalformed ∧
    (BufferToHeader (HeaderBuf.of 1000 0 0 0 0) Message.ctorDefault).Type_ = 1000 := by
  refine ⟨?_, rfl, ?_, rfl⟩
  · intro t
    cases t <;> decide
  · intro hh
    cases hh

theorem Message.Text_ctor_result (h : Heap) (t s r m : Int) (text : List Char) :
    Message.Text (h.withNew text)
      { m_type := t, m_sending_player := s, m_receiving_player := r,
        m_receiving_module := m, m_message_size := text.length,
        m_message_text := h.next } = some text :=
  Heap.read_withNew h text

theorem openArchive_of_text {D : Domain} (c : Codec D) (hc : c.Lossless) (w : World)
    (msg : Message) (fs : List (Field D)) (ht : msg.Text w.heap = some (c.str fs)) :
    openArchive c w msg = some fs := by
  unfold openArchive
  rw [ht]
  exact hc fs

theorem Codec.unary_lossless : Codec.unary.Lossless := by
  intro fs
  simp [Codec.unary]

/-- C10: with a lossless codec, in every program state, each of the builders
`GameStartMessage`, `TurnUpdateMessage` and `TurnProgressMessage` completes; its
payload is the archive of the fields (`single_player_game`, `empire_id`,
`current_turn`, `empires`, `universe`), (`current_turn`, `empires`, `universe`)
and (`phase_id`, `empire_id`), in this order; and the matching
`ExtractMessageData` overload, run in any program state on any Message that
carries this payload, returns exactly the values the builder was given. -/
theorem builder_extractor_roundtrip {D : Domain} (c : Codec D) (hc : c.Lossless) (w : World) :
    (∀ (player_id : Int) (single_player_game : Bool) (empire_id current_turn : Int)
        (empires : D.EmpireManager) (universe_ : D.Universe),
      ∃ w1 msg, GameStartMessage c w player_id single_player_game empire_id current_turn
          empires universe_ = some (w1, msg) ∧
        msg.Type_ = MessageType.GAME_START.toInt ∧
        msg.Text w1.heap = some (c.str [Field.bool single_player_game, Field.int empire_id,
          Field.int current_turn, Field.empires empire_id empires,
          Field.univ empire_id universe_]) ∧
        ∀ (w2 : World) (m2 : Message), m2.Text w2.heap = msg.Text w1.heap →
          ExtractMessageData_gameStart c w2 m2
            = some ({ w2 with s_encoding_empire := empire_id }, single_player_game, empire_id,
                current_turn, empires, universe_)) ∧
    (∀ (player_id empire_id current_turn : Int)
        (empires : D.EmpireManager) (universe_ : D.Universe),
      ∃ w1 msg, TurnUpdateMessage c w player_id empire_id current_turn empires universe_
          = some (w1, msg) ∧
        msg.Type_ = MessageType.TURN_UPDATE.toInt ∧
        msg.Text w1.heap = some (c.str [Field.int current_turn,
          Field.empires empire_id empires, Field.univ empire_id universe_]) ∧
        ∀ (w2 : World) (m2 : Message) (viewer : Int), m2.Text w2.heap = msg.Text w1.heap →
          ExtractMessageData_turnUpdate c w2 m2 viewer
            = some ({ w2 with s_encoding_empire := viewer }, current_turn, empires,
                universe_)) ∧
    (∀ (player_id : Int) (phase_id : TurnProgressPhase) (empire_id : Int),
      ∃ w1 msg, TurnProgressMessage c w player_id phase_id empire_id = some (w1, msg) ∧
        msg.Type_ = MessageType.TURN_PROGRESS.toInt ∧
        msg.Text w1.heap = some (c.str [Field.phase phase_id, Field.int empire_id]) ∧
        ∀ (w2 : World) (m2 : Message), m2.Text w2.heap = msg.Text w1.heap →
          ExtractMessageData_turnProgress c w2 m2 = some (phase_id, empire_id)) := by
  refine ⟨?_, ?_, ?_⟩
  · intro player_id sp empire_id turn empires universe_
    have htext := Message.Text_ctor_result w.heap MessageType.GAME_START.toInt (-1) player_id
      ModuleType.CORE.toInt (c.str [Field.bool sp, Field.int empire_id, Field.int turn,
        Field.empires empire_id empires, Field.univ empire_id universe_])
    refine ⟨⟨w.heap.withNew _, empire_id⟩, ⟨_, _, _, _, _, w.heap.next⟩, ?_, ?_, htext, ?_⟩
    · simp only [GameStartMessage, OArchive.write, Message.ctor_eq]
      rfl
    · rfl
    · intro w2 m2 h2
      have ho := openArchive_of_text c hc w2 m2 _ (h2.trans htext)
      unfold ExtractMessageData_gameStart
      rw [ho]
      rfl
  · intro player_id empire_id turn empires universe_
    have htext := Message.Text_ctor_result w.heap MessageType.TURN_UPDATE.toInt (-1) player_id
      ModuleType.CORE.toInt (c.str [Field.int turn, Field.empires empire_id empires,
        Field.univ empire_id universe_])
    refine ⟨⟨w.heap.withNew _, empire_id⟩, ⟨_, _, _, _, _, w.heap.next⟩, ?_, ?_, htext, ?_⟩
    · simp only [TurnUpdateMessage, OArchive.write, Message.ctor_eq]
      rfl
    · rfl
    · intro w2 m2 viewer h2
      have ho := openArchive_of_text c hc w2 m2 _ (h2.trans htext)
      unfold ExtractMessageData_turnUpdate
      rw [ho]
      rfl
  · intro player_id phase_id empire_id
    have htext := Message.Text_ctor_result w.heap MessageType.TURN_PROGRESS.toInt (-1)
      player_id ModuleType.CORE.toInt (c.str [Field.phase phase_id, Field.int empire_id])
    refine ⟨⟨w.heap.withNew _, w.s_encoding_empire⟩, ⟨_, _, _, _, _, w.heap.next⟩, ?_, ?_,
      htext, ?_⟩
    · simp only [TurnProgressMessage, OArchive.write, Message.ctor_eq]
      rfl
    · rfl
    · intro w2 m2 h2
      have ho := openArchive_of_text c hc w2 m2 _ (h2.trans htext)
      unfold ExtractMessageData_turnProgress
      rw [ho]
      rfl

/-- Witness of C10: the unary codec of `Domain.unit`, and the turn-progress
Message for player 2 built in the empty store, read back in the state the
builder left. -/
theorem builder_extractor_roundtrip_witness :
    ∃ w1 msg, TurnProgressMessage Codec.unary ⟨Heap.empty, 0⟩ 2 TurnProgressPhase.COMBAT 7
        = some (w1, msg) ∧
      ExtractMessageData_turnProgress Codec.unary w1 msg = some (TurnProgressPhase.COMBAT, 7) :=
  let ⟨w1, msg, hb, _, _, hx⟩ :=
    (builder_extractor_roundtrip Codec.unary Codec.unary_lossless ⟨Heap.empty, 0⟩).2.2
      2 TurnProgressPhase.COMBAT 7
  ⟨w1, msg, hb, hx w1 msg rfl⟩

/-! ### Decimal text -/

theorem digitsLE_spec (fuel : Nat) : ∀ n, n < fuel →
    (∀ d ∈ digitsLE fuel n, d < 10) ∧ Nat.ofDigits 10 (digitsLE fuel n) = n ∧
      digitsLE fuel n ≠ [] := by
  induction fuel with
  | zero => intro n hn; omega
  | succ k ih =>
    intro n hn
    unfold digitsLE
    by_cases h10 : n < 10
    · rw [if_pos h10]
      refine ⟨?_, ?_, ?_⟩
      · intro d hd
        rw [List.mem_singleton] at hd
        omega
      · simp [Nat.ofDigits]
      · simp
    · rw [if_neg h10]
      have hlt : n / 10 < k := by omega
      obtain ⟨h1, h2, _⟩ := ih (n / 10) hlt
      refine ⟨?_, ?_, ?_⟩
      · intro d hd
        rw [List.mem_cons] at hd
        rcases hd with rfl | hd
        · omega
        · exact h1 d hd
      · rw [Nat.ofDigits_cons, h2]
        omega
      · simp

theorem digitVal_digitChar (d : Nat) (hd : d < 10) : digitVal (digitChar d) = some d := by
  interval_cases d <;> rfl

theorem digitChar_ne_minus (d : Nat) (hd : d < 10) : digitChar d ≠ '-' := by
  interval_cases d <;> decide

theorem digitVals_map_digitChar (ds : List Nat) (hds : ∀ d ∈ ds, d < 10) :
    digitVals (ds.map digitChar) = some ds := by
  induction ds with
  | nil => rfl
  | cons d rest ih =>
    have hd : d < 10 := hds d (List.mem_cons_self _ _)
    have hrest : ∀ x ∈ rest, x < 10 := fun x hx => hds x (List.mem_cons_of_mem _ hx)
    simp only [List.map_cons, digitVals, digitVal_digitChar d hd, ih hrest]

theorem parseNat_decimalNat (n : Nat) : parseNat (decimalNat n) = some n := by
  obtain ⟨h1, h2, h3⟩ := digitsLE_spec (n + 1) n (Nat.lt_succ_self n)
  unfold parseNat decimalNat
  have hne : List.map digitChar (digitsLE (n + 1) n).reverse ≠ [] := by
    simpa using h3
  rw [if_neg hne, digitVals_map_digitChar _ (by
    intro d hd
    exact h1 d (List.mem_reverse.mp hd))]
  simp [h2]

theorem decimalNat_head (n : Nat) :
    ∃ c cs, decimalNat n = c :: cs ∧ c ≠ '-' := by
  obtain ⟨h1, _, h3⟩ := digitsLE_spec (n + 1) n (Nat.lt_succ_self n)
  unfold decimalNat
  cases hrev : (digitsLE (n + 1) n).reverse with
  | nil =>
    rw [List.reverse_eq_nil_iff] at hrev
    exact absurd hrev h3
  | cons d rest =>
    refine ⟨digitChar d, rest.map digitChar, rfl, digitChar_ne_minus d ?_⟩
    apply h1
    rw [← List.mem_reverse, hrev]
    exact List.mem_cons_self _ _

theorem parseDecimal_of_head_ne (c : Char) (cs : List Char) (hc : c ≠ '-') :
    parseDecimal (c :: cs) = (parseNat (c :: cs)).map fun n => (n : Int) := by
  unfold parseDecimal
  split
  · rename_i heq
    simp only [List.cons.injEq] at heq
    exact absurd heq.1 hc
  · rfl

theorem parseDecimal_decimal (i : Int) : parseDecimal (decimal i) = some i := by
  unfold decimal
  by_cases hneg : i < 0
  · rw [if_pos hneg]
    show (parseNat (decimalNat i.natAbs)).map (fun n => -(n : Int)) = some i
    rw [parseNat_decimalNat]
    show some (-((i.natAbs : Nat) : Int)) = some i
    congr 1
    omega
  · rw [if_neg hneg]
    obtain ⟨c, cs, heq, hc⟩ := decimalNat_head i.natAbs
    rw [heq, parseDecimal_of_head_ne c cs hc, ← heq, parseNat_decimalNat]
    show some ((i.natAbs : Nat) : Int) = some i
    congr 1
    omega

theorem Codec.unarySimple_lossless : Codec.unarySimple.Lossless := by
  intro fs
  simp [Codec.unarySimple]

/-! ### Builders with a text payload -/

/-- C13: for every store, sender and string `msg` (the empty one included),
`ChatMessage(sender, msg)` completes with `Type() = HUMAN_PLAYER_CHAT`,
`SendingPlayer() = sender`, `ReceivingPlayer() = -1`, module `CORE` and
`Text() = msg`; `ChatMessage(sender, receiver, msg)` yields the same store and
the same Message except that `ReceivingPlayer() = receiver`. -/
theorem chatMessage_fields (h : Heap) (sender receiver : Int) (msg : List Char) :
    (∃ h1 m, ChatMessage h sender msg = some (h1, m) ∧
      m.Type_ = MessageType.HUMAN_PLAYER_CHAT.toInt ∧ m.SendingPlayer = sender ∧
      m.ReceivingPlayer = -1 ∧ m.ReceivingModule = ModuleType.CORE.toInt ∧
      m.Size = msg.length ∧ m.Text h1 = some msg ∧
      ChatMessage_to h sender receiver msg
        = some (h1, { m with m_receiving_player := receiver })) ∧
    (∃ h1 m, ChatMessage_to h sender receiver msg = some (h1, m) ∧
      m.Type_ = MessageType.HUMAN_PLAYER_CHAT.toInt ∧ m.SendingPlayer = sender ∧
      m.ReceivingPlayer = receiver ∧ m.ReceivingModule = ModuleType.CORE.toInt ∧
      m.Size = msg.length ∧ m.Text h1 = some msg) := by
  refine ⟨⟨_, _, Message.ctor_eq _ _ _ _ _ _, rfl, rfl, rfl, rfl, rfl,
      Message.Text_ctor_result _ _ _ _ _ _, Message.ctor_eq _ _ _ _ _ _⟩,
    ⟨_, _, Message.ctor_eq _ _ _ _ _ _, rfl, rfl, rfl, rfl, rfl,
      Message.Text_ctor_result _ _ _ _ _ _⟩⟩

/-- C14: for every store, `player_id` and integer `new_id` (negative values, 0 and
the extreme `int` values included), `DispatchObjectIDMessage(player_id, new_id)`
completes with `Type() = DISPATCH_NEW_OBJECT_ID`, `SendingPlayer() = -1`,
`ReceivingPlayer() = player_id`, module `CLIENT_SYNCHRONOUS_RESPONSE` and the
decimal text of `new_id` as `Text()`, and reading that text as a decimal
integer gives `new_id`. -/
theorem dispatchObjectID_roundtrip (h : Heap) (player_id new_id : Int) :
    ∃ h1 m, DispatchObjectIDMessage h player_id new_id = some (h1, m) ∧
      m.Type_ = MessageType.DISPATCH_NEW_OBJECT_ID.toInt ∧ m.SendingPlayer = -1 ∧
      m.ReceivingPlayer = player_id ∧
      m.ReceivingModule = ModuleType.CLIENT_SYNCHRONOUS_RESPONSE.toInt ∧
      m.Text h1 = some (decimal new_id) ∧
      (m.Text h1).bind parseDecimal = some new_id := by
  refine ⟨_, _, Message.ctor_eq _ _ _ _ _ _, rfl, rfl, rfl, rfl,
    Message.Text_ctor_result _ _ _ _ _ _, ?_⟩
  rw [Message.Text_ctor_result]
  exact parseDecimal_decimal new_id

/-- C15: for every store and sender, `RequestNewObjectIDMessage(sender)` completes
with `Type() = REQUEST_NEW_OBJECT_ID`, `SendingPlayer() = sender`,
`ReceivingPlayer() = -1`, module `CORE`, `Size() = 0` and the empty `Text()`. -/
theorem requestNewObjectID_fields (h : Heap) (sender : Int) :
    ∃ h1 m, RequestNewObjectIDMessage h sender = some (h1, m) ∧
      m.Type_ = MessageType.REQUEST_NEW_OBJECT_ID.toInt ∧ m.SendingPlayer = sender ∧
      m.ReceivingPlayer = -1 ∧ m.ReceivingModule = ModuleType.CORE.toInt ∧
      m.Size = 0 ∧ m.Text h1 = some [] := by
  exact ⟨_, _, Message.ctor_eq _ _ _ _ _ _, rfl, rfl, rfl, rfl, rfl,
    Message.Text_ctor_result _ _ _ _ _ _⟩

/-- C18, as amended: for every store and all arguments, `HostSPAckMessage` and
`HostMPAckMessage` have the payload `ACK`, and `StartMPGameMessage`,
`LobbyExitMessage` and `ServerLobbyExitMessage` have the empty payload;
`JoinAckMessage(player_id)` has the decimal text of `player_id` as payload. -/
theorem literal_payloads (h : Heap) (player_id sender receiver : Int) :
    (∃ h1 m, HostSPAckMessage h player_id = some (h1, m) ∧ m.Text h1 = some "ACK".toList) ∧
    (∃ h1 m, HostMPAckMessage h player_id = some (h1, m) ∧ m.Text h1 = some "ACK".toList) ∧
    (∃ h1 m, StartMPGameMessage h player_id = some (h1, m) ∧ m.Text h1 = some []) ∧
    (∃ h1 m, LobbyExitMessage h sender = some (h1, m) ∧ m.Text h1 = some []) ∧
    (∃ h1 m, ServerLobbyExitMessage h sender receiver = some (h1, m) ∧
      m.Text h1 = some []) ∧
    (∃ h1 m, JoinAckMessage h player_id = some (h1, m) ∧
      m.Text h1 = some (decimal player_id)) := by
  exact ⟨⟨_, _, Message.ctor_eq _ _ _ _ _ _, Message.Text_ctor_result _ _ _ _ _ _⟩,
    ⟨_, _, Message.ctor_eq _ _ _ _ _ _, Message.Text_ctor_result _ _ _ _ _ _⟩,
    ⟨_, _, Message.ctor_eq _ _ _ _ _ _, Message.Text_ctor_result _ _ _ _ _ _⟩,
    ⟨_, _, Message.ctor_eq _ _ _ _ _ _, Message.Text_ctor_result _ _ _ _ _ _⟩,
    ⟨_, _, Message.ctor_eq _ _ _ _ _ _, Message.Text_ctor_result _ _ _ _ _ _⟩,
    ⟨_, _, Message.ctor_eq _ _ _ _ _ _, Message.Text_ctor_result _ _ _ _ _ _⟩⟩

/-- C18 fails as stated: in the empty store `JoinAckMessage(1)` has the payload
`1` and `JoinAckMessage(2)` has the payload `2`. -/
theorem joinAck_payload_varies :
    ∃ h1 m1 h2 m2, JoinAckMessage Heap.empty 1 = some (h1, m1) ∧
      JoinAckMessage Heap.empty 2 = some (h2, m2) ∧
      m1.Text h1 = some ['1'] ∧ m2.Text h2 = some ['2'] ∧ m1.Text h1 ≠ m2.Text h2 := by
  refine ⟨_, _, _, _, Message.ctor_eq _ _ _ _ _ _, Message.ctor_eq _ _ _ _ _ _, ?_, ?_, ?_⟩
  · decide
  · decide
  · decide

/-! ### Save data, turn orders and the encoding viewpoint -/

/-- C11: with a lossless codec, in every program state and for every sender and
order set: `ClientSaveDataMessage(sender, orders)` completes with the payload
(`orders`, flag `false`), and the three-argument `ExtractMessageData`, run in any
state on a Message with this payload, returns `false`, recovers `orders` and
leaves the caller's `ui_data` as it was, although the archive holds no further
field that a read of `ui_data` could take; `ClientSaveDataMessage(sender,
orders, ui)` completes with the payload (`orders`, flag `true`, `ui`), and the
extractor returns `true`, `orders` and `ui`. Both Messages are of kind
`CLIENT_SAVE_DATA`, from `sender` to `-1`, module `CORE`. -/
theorem clientSaveData_optional_payload {D : Domain} (c : Codec D) (hc : c.Lossless)
    (w : World) (sender : Int) (orders : D.OrderSet) :
    (∃ w1 msg, ClientSaveDataMessage c w sender orders = some (w1, msg) ∧
      msg.Type_ = MessageType.CLIENT_SAVE_DATA.toInt ∧ msg.SendingPlayer = sender ∧
      msg.ReceivingPlayer = -1 ∧ msg.ReceivingModule = ModuleType.CORE.toInt ∧
      msg.Text w1.heap = some (c.str [Field.orders orders, Field.bool false]) ∧
      (∀ (w2 : World) (m2 : Message) (ui0 : D.SaveGameUIData),
        m2.Text w2.heap = msg.Text w1.heap →
        ExtractMessageData_saveData c w2 m2 ui0 = some (false, orders, ui0)) ∧
      IArchive.readUiData ([] : IArchive D) = none) ∧
    (∀ ui : D.SaveGameUIData,
      ∃ w1 msg, ClientSaveDataMessage_ui c w sender orders ui = some (w1, msg) ∧
        msg.Type_ = MessageType.CLIENT_SAVE_DATA.toInt ∧ msg.SendingPlayer = sender ∧
        msg.ReceivingPlayer = -1 ∧ msg.ReceivingModule = ModuleType.CORE.toInt ∧
        msg.Text w1.heap
          = some (c.str [Field.orders orders, Field.bool true, Field.uiData ui]) ∧
        ∀ (w2 : World) (m2 : Message) (ui0 : D.SaveGameUIData),
          m2.Text w2.heap = msg.Text w1.heap →
          ExtractMessageData_saveData c w2 m2 ui0 = some (true, orders, ui)) := by
  constructor
  · have htext := Message.Text_ctor_result w.heap MessageType.CLIENT_SAVE_DATA.toInt sender
      (-1) ModuleType.CORE.toInt (c.str [Field.orders orders, Field.bool false])
    refine ⟨⟨w.heap.withNew _, w.s_encoding_empire⟩, ⟨_, _, _, _, _, w.heap.next⟩, ?_, rfl,
      rfl, rfl, rfl, htext, ?_, rfl⟩
    · simp only [ClientSaveDataMessage, OArchive.write, Message.ctor_eq]
      rfl
    · intro w2 m2 ui0 h2
      have ho := openArchive_of_text c hc w2 m2 _ (h2.trans htext)
      unfold ExtractMessageData_saveData
      rw [ho]
      rfl
  · intro ui
    have htext := Message.Text_ctor_result w.heap MessageType.CLIENT_SAVE_DATA.toInt sender
      (-1) ModuleType.CORE.toInt
      (c.str [Field.orders orders, Field.bool true, Field.uiData ui])
    refine ⟨⟨w.heap.withNew _, w.s_encoding_empire⟩, ⟨_, _, _, _, _, w.heap.next⟩, ?_, rfl,
      rfl, rfl, rfl, htext, ?_⟩
    · simp only [ClientSaveDataMessage_ui, OArchive.write, Message.ctor_eq]
      rfl
    · intro w2 m2 ui0 h2
      have ho := openArchive_of_text c hc w2 m2 _ (h2.trans htext)
      unfold ExtractMessageData_saveData
      rw [ho]
      rfl

/-- Witness of C11: player 1 saves the orders 10, 20, 30 without UI data; the
extractor, whose caller holds the UI data 99, returns `false` and leaves 99. -/
theorem clientSaveData_optional_payload_witness :
    ∃ w1 msg, ClientSaveDataMessage Codec.unarySimple ⟨Heap.empty, 0⟩ 1 [10, 20, 30]
        = some (w1, msg) ∧
      ExtractMessageData_saveData Codec.unarySimple w1 msg 99 = some (false, [10, 20, 30], 99) :=
  let ⟨w1, msg, hb, _, _, _, _, _, hx, _⟩ :=
    (clientSaveData_optional_payload Codec.unarySimple Codec.unarySimple_lossless
      ⟨Heap.empty, 0⟩ 1 [10, 20, 30]).1
  ⟨w1, msg, hb, hx w1 msg 99 rfl⟩

/-- C12: with a lossless codec, in every program state and for every sender and
order set, `TurnOrdersMessage(sender, orders)` completes with `Type() =
TURN_ORDERS`, `SendingPlayer() = sender`, `ReceivingPlayer() = -1` and module
`CORE`, and `ExtractMessageData(msg, out)`, run in any state on a Message with
this payload, yields the order set that was given: whatever is observed of it
(the number of orders, their sequence) is what is observed of the original. -/
theorem turnOrders_roundtrip {D : Domain} (c : Codec D) (hc : c.Lossless) (w : World)
    (sender : Int) (orders : D.OrderSet) :
    ∃ w1 msg, TurnOrdersMessage c w sender orders = some (w1, msg) ∧
      msg.Type_ = MessageType.TURN_ORDERS.toInt ∧ msg.SendingPlayer = sender ∧
      msg.ReceivingPlayer = -1 ∧ msg.ReceivingModule = ModuleType.CORE.toInt ∧
      ∀ (w2 : World) (m2 : Message), m2.Text w2.heap = msg.Text w1.heap →
        ExtractMessageData_orders c w2 m2 = some orders ∧
        ∀ (α : Type) (observe : D.OrderSet → α),
          (ExtractMessageData_orders c w2 m2).map observe = some (observe orders) := by
  have htext := Message.Text_ctor_result w.heap MessageType.TURN_ORDERS.toInt sender
    (-1) ModuleType.CORE.toInt (c.str [Field.orders orders])
  refine ⟨⟨w.heap.withNew (c.str [Field.orders orders]), w.s_encoding_empire⟩,
    ⟨_, _, _, _, (c.str [Field.orders orders]).length, w.heap.next⟩, ?_, rfl,
    rfl, rfl, rfl, ?_⟩
  · simp only [TurnOrdersMessage, OArchive.write, Message.ctor_eq]
    rfl
  · intro w2 m2 h2
    have ho := openArchive_of_text c hc w2 m2 _ (h2.trans htext)
    have hx : ExtractMessageData_orders c w2 m2 = some orders := by
      unfold ExtractMessageData_orders
      rw [ho]
      rfl
    refine ⟨hx, ?_⟩
    intro α observe
    rw [hx]
    rfl

/-- Witness of C12: player 2 sends the three orders 10, 20, 30; the extracted
order set has length 3 and lists them in this sequence. -/
theorem turnOrders_roundtrip_witness :
    ∃ w1 msg, TurnOrdersMessage Codec.unarySimple ⟨Heap.empty, 0⟩ 2 [10, 20, 30]
        = some (w1, msg) ∧
      msg.ReceivingPlayer = -1 ∧
      ExtractMessageData_orders Codec.unarySimple w1 msg = some [10, 20, 30] ∧
      (ExtractMessageData_orders Codec.unarySimple w1 msg).map List.length = some 3 :=
  let ⟨w1, msg, hb, _, _, hr, _, hx⟩ :=
    turnOrders_roundtrip Codec.unarySimple Codec.unarySimple_lossless ⟨Heap.empty, 0⟩ 2
      [10, 20, 30]
  ⟨w1, msg, hb, hr, (hx w1 msg rfl).1, (hx w1 msg rfl).2 Nat List.length⟩

/-- C17: for every codec and program state, whatever `Universe::s_encoding_empire`
held before, `GameStartMessage` and `TurnUpdateMessage` complete; the empires
and the universe are serialised from the viewpoint `empire_id` (the field
written records the value `s_encoding_empire` has at that moment);
`s_encoding_empire` equals `empire_id` when the builder returns; and the Message
is addressed from `-1` to `player_id`. -/
theorem encoding_viewpoint {D : Domain} (c : Codec D) (w : World)
    (player_id : Int) (single_player_game : Bool) (empire_id current_turn : Int)
    (empires : D.EmpireManager) (universe_ : D.Universe) :
    (∃ w1 msg, GameStartMessage c w player_id single_player_game empire_id current_turn
        empires universe_ = some (w1, msg) ∧
      w1.s_encoding_empire = empire_id ∧
      msg.SendingPlayer = -1 ∧ msg.ReceivingPlayer = player_id ∧
      msg.Text w1.heap = some (c.str [Field.bool single_player_game, Field.int empire_id,
        Field.int current_turn, Field.empires empire_id empires,
        Field.univ empire_id universe_])) ∧
    (∃ w1 msg, TurnUpdateMessage c w player_id empire_id current_turn empires universe_
        = some (w1, msg) ∧
      w1.s_encoding_empire = empire_id ∧
      msg.SendingPlayer = -1 ∧ msg.ReceivingPlayer = player_id ∧
      msg.Text w1.heap = some (c.str [Field.int current_turn,
        Field.empires empire_id empires, Field.univ empire_id universe_])) := by
  constructor
  · refine ⟨⟨w.heap.withNew _, empire_id⟩,
      ⟨MessageType.GAME_START.toInt, -1, player_id, ModuleType.CORE.toInt, _, w.heap.next⟩,
      ?_, rfl, rfl, rfl, Message.Text_ctor_result _ _ _ _ _ _⟩
    simp only [GameStartMessage, OArchive.write, Message.ctor_eq]
    rfl
  · refine ⟨⟨w.heap.withNew _, empire_id⟩,
      ⟨MessageType.TURN_UPDATE.toInt, -1, player_id, ModuleType.CORE.toInt, _, w.heap.next⟩,
      ?_, rfl, rfl, rfl, Message.Text_ctor_result _ _ _ _ _ _⟩
    simp only [TurnUpdateMessage, OArchive.write, Message.ctor_eq]
    rfl

/-! ### The diagnostic line -/

theorem Heap.deleteArray_store_self (h : Heap) (p : Nat) (hp : p ≠ 0) :
    (h.deleteArray p).store p = none := by
  unfold Heap.deleteArray Heap.put
  simp [hp]

theorem Message.Resize_fst_store_old (h : Heap) (c : Message) (n : Nat)
    (h0 : c.Data ≠ 0) (hn : c.Data ≠ h.next) :
    (Message.Resize h c n).1.store c.Data = none := by
  have h0' : c.m_message_text ≠ 0 := h0
  have hn' : c.m_message_text ≠ h.next := hn
  simp [Message.Resize, Heap.newArray, Heap.deleteArray_next, Message.Data, hn']
  exact Heap.deleteArray_store_self h _ h0'

/-- C20: for every header `hb` whose length slot is an `int` (the other four slots
pass through unconverted), every Message `m` and every buffer, `BufferToHeader(hb,
m)` followed by `HeaderToBuffer(m, buf)` writes slots 0 to 4 of `hb` back
exactly, negative values and values that name no kind or module included: the
length slot returns unchanged from the conversions `int` to `std::size_t` to
`int`. -/
theorem reverse_header_roundtrip (hb buf : HeaderBuf) (m : Message) (hint : IsInt (hb 4)) :
    ∀ i, i < 5 → HeaderToBuffer (BufferToHeader hb m) buf i = hb i := by
  intro i hi
  have hcases : i = 0 ∨ i = 1 ∨ i = 2 ∨ i = 3 ∨ i = 4 := by omega
  rcases hcases with rfl | rfl | rfl | rfl | rfl
  · rw [HeaderToBuffer_zero, BufferToHeader_Type_]
  · rw [HeaderToBuffer_one, BufferToHeader_SendingPlayer]
  · rw [HeaderToBuffer_two, BufferToHeader_ReceivingPlayer]
  · rw [HeaderToBuffer_three, BufferToHeader_ReceivingModule]
  · rw [HeaderToBuffer_four, BufferToHeader_Size]
    exact sizeToInt_intToSize _ hint

/-- Witness of C20: the header `{-7, -1, 2147483647, 99, -2147483648}`, read into a
default Message and written over a buffer of zeros. -/
theorem reverse_header_roundtrip_witness :
    HeaderToBuffer
        (BufferToHeader (HeaderBuf.of (-7) (-1) 2147483647 99 (-2147483648)) Message.ctorDefault)
        (HeaderBuf.of 0 0 0 0 0) 4
      = HeaderBuf.of (-7) (-1) 2147483647 99 (-2147483648) 4 :=
  reverse_header_roundtrip (HeaderBuf.of (-7) (-1) 2147483647 99 (-2147483648))
    (HeaderBuf.of 0 0 0 0 0) Message.ctorDefault (by decide) 4 (by decide)

/-! ### Scope stripping and kind names -/

theorem isPrefixOf_true_iff (p t : List Char) : p.isPrefixOf t = true ↔ p <+: t :=
  List.isPrefixOf_iff_prefix

theorem isPrefixOf_append_self (p s : List Char) : p.isPrefixOf (p ++ s) = true :=
  (isPrefixOf_true_iff p (p ++ s)).mpr ⟨s, rfl⟩

theorem erase_first_copy_leading (p s : List Char) : erase_first_copy (p ++ s) p = s := by
  cases hps : p ++ s with
  | nil =>
    have hs : s = [] := (List.append_eq_nil.mp hps).2
    rw [hs]
    rfl
  | cons c rest =>
    unfold erase_first_copy
    have hpre : p.isPrefixOf (c :: rest) = true := by
      rw [← hps]
      exact isPrefixOf_append_self p s
    rw [if_pos hpre, ← hps]
    exact List.drop_left p s

/-- C23: for every string `s`, `StripMessageScoping("Message::" + s) = s`: only the
leading prefix goes, and what follows it is returned as it is, further
occurrences of `Message::` included; and for every string `t` that does not
start with `Message::`, `StripMessageScoping(t) = t`. -/
theorem stripMessageScoping_spec :
    (∀ s : List Char, StripMessageScoping (MESSAGE_SCOPE_PREFIX ++ s) = s) ∧
    (∀ t : List Char, ¬ MESSAGE_SCOPE_PREFIX <+: t → StripMessageScoping t = t) := by
  constructor
  · intro s
    unfold StripMessageScoping starts_with
    rw [isPrefixOf_append_self, if_pos rfl]
    exact erase_first_copy_leading MESSAGE_SCOPE_PREFIX s
  · intro t ht
    unfold StripMessageScoping starts_with
    have hf : MESSAGE_SCOPE_PREFIX.isPrefixOf t = false := by
      cases hb : MESSAGE_SCOPE_PREFIX.isPrefixOf t with
      | false => rfl
      | true => exact absurd ((isPrefixOf_true_iff _ _).mp hb) ht
    rw [hf]
    rfl

/-- Witness of C23: `Message::Message::X` loses its first prefix only, and
`aMessage::X`, which holds the prefix further in, is returned whole. -/
theorem stripMessageScoping_spec_witness :
    StripMessageScoping (MESSAGE_SCOPE_PREFIX ++ "Message::X".toList) = "Message::X".toList ∧
    StripMessageScoping "aMessage::X".toList = "aMessage::X".toList :=
  ⟨stripMessageScoping_spec.1 "Message::X".toList,
   stripMessageScoping_spec.2 "aMessage::X".toList (by
    intro hp
    have hb := (isPrefixOf_true_iff _ _).mpr hp
    revert hb
    decide)⟩

/-- C22 fails on the code: `RENAME_PLAYER`, the kind `RenameMessage` puts into a
Message, is the one kind among those of the named ctors without an entry in
the `GG_ENUM_MAP` of `Message::MessageType`; every other one has an entry, and
`MessageTypeStr` gives it the name of that entry, without the `Message::`
scope. For the Message `RenameMessage(1, "Bob")` the name looked up is empty,
and `operator<<` prints the line without a kind name. -/
theorem renamePlayer_has_no_name :
    MessageType.RENAME_PLAYER ∈ builderKinds ∧
    MessageType.RENAME_PLAYER.hasEntry = false ∧
    (∀ t ∈ builderKinds, t ≠ MessageType.RENAME_PLAYER →
      t.hasEntry = true ∧
      (t, String.mk (MESSAGE_SCOPE_PREFIX ++ MessageTypeStr t.toInt)) ∈ MessageType.enumMap) ∧
    (∃ h1 m, RenameMessage Heap.empty 1 "Bob".toList = some (h1, m) ∧
      m.Type_ = MessageType.RENAME_PLAYER.toInt ∧
      MessageTypeStr m.Type_ = [] ∧
      Message.print h1 [] m
        = some "Message:  -1(server/unknown) --> 1.CORE \"Bob\"\n".toList) := by
  refine ⟨by decide, by decide, by decide, ?_⟩
  refine ⟨_, _, Message.ctor_eq _ _ _ _ _ _, rfl, by decide, by decide⟩

/-! ### The shared wire shape of save data -/

/-- C21: with a lossless codec, for all program states, receiver, sender, order
set and UI data: `ServerLoadGameMessage(receiver, orders, &ui)` and
`ClientSaveDataMessage(sender, orders, ui)` complete with the same payload, the
archive of (`orders`, flag `true`, `ui`); `ServerLoadGameMessage(receiver,
orders, null)` and `ClientSaveDataMessage(sender, orders)` complete with the
same payload, the archive of (`orders`, flag `false`); and the three-argument
`ExtractMessageData`, run on any Message with the payload of
`ServerLoadGameMessage`, recovers `orders`, returns `true` exactly when
`ui_data` was not null, and then recovers the UI data too, otherwise leaving
the caller's `ui_data` as it was. -/
theorem serverLoadGame_wire_shape {D : Domain} (c : Codec D) (hc : c.Lossless)
    (w w' : World) (receiver sender : Int) (orders : D.OrderSet) :
    (∀ ui : D.SaveGameUIData, ∃ w1 m1 w2 m2,
      ServerLoadGameMessage c w receiver orders (some ui) = some (w1, m1) ∧
      ClientSaveDataMessage_ui c w' sender orders ui = some (w2, m2) ∧
      m1.Type_ = MessageType.LOAD_GAME.toInt ∧
      m2.Type_ = MessageType.CLIENT_SAVE_DATA.toInt ∧
      m1.Size = m2.Size ∧ m1.Text w1.heap = m2.Text w2.heap ∧
      m1.Text w1.heap
        = some (c.str [Field.orders orders, Field.bool true, Field.uiData ui])) ∧
    (∃ w1 m1 w2 m2,
      ServerLoadGameMessage c w receiver orders none = some (w1, m1) ∧
      ClientSaveDataMessage c w' sender orders = some (w2, m2) ∧
      m1.Type_ = MessageType.LOAD_GAME.toInt ∧
      m2.Type_ = MessageType.CLIENT_SAVE_DATA.toInt ∧
      m1.Size = m2.Size ∧ m1.Text w1.heap = m2.Text w2.heap ∧
      m1.Text w1.heap = some (c.str [Field.orders orders, Field.bool false])) ∧
    (∀ ui_data : Option D.SaveGameUIData, ∃ w1 m1,
      ServerLoadGameMessage c w receiver orders ui_data = some (w1, m1) ∧
      ∀ (w3 : World) (m3 : Message) (ui0 : D.SaveGameUIData),
        m3.Text w3.heap = m1.Text w1.heap →
        ExtractMessageData_saveData c w3 m3 ui0
          = some (ui_data.isSome, orders, ui_data.getD ui0)) := by
  have hsome : ∀ ui : D.SaveGameUIData,
      ServerLoadGameMessage c w receiver orders (some ui)
        = some (⟨w.heap.withNew
              (c.str [Field.orders orders, Field.bool true, Field.uiData ui]),
            w.s_encoding_empire⟩,
          ⟨MessageType.LOAD_GAME.toInt, -1, receiver, ModuleType.CORE.toInt,
            (c.str [Field.orders orders, Field.bool true, Field.uiData ui]).length,
            w.heap.next⟩) := by
    intro ui
    simp only [ServerLoadGameMessage, OArchive.write, Message.ctor_eq]
    rfl
  have hnone : ServerLoadGameMessage c w receiver orders none
        = some (⟨w.heap.withNew (c.str [Field.orders orders, Field.bool false]),
            w.s_encoding_empire⟩,
          ⟨MessageType.LOAD_GAME.toInt, -1, receiver, ModuleType.CORE.toInt,
            (c.str [Field.orders orders, Field.bool false]).length, w.heap.next⟩) := by
    simp only [ServerLoadGameMessage, OArchive.write, Message.ctor_eq]
    rfl
  refine ⟨?_, ?_, ?_⟩
  · intro ui
    refine ⟨_, _, ⟨w'.heap.withNew
          (c.str [Field.orders orders, Field.bool true, Field.uiData ui]),
        w'.s_encoding_empire⟩,
      ⟨MessageType.CLIENT_SAVE_DATA.toInt, sender, -1, ModuleType.CORE.toInt,
        (c.str [Field.orders orders, Field.bool true, Field.uiData ui]).length,
        w'.heap.next⟩, hsome ui, ?_, rfl, rfl, rfl, ?_, ?_⟩
    · simp only [ClientSaveDataMessage_ui, OArchive.write, Message.ctor_eq]
      rfl
    · exact (Message.Text_ctor_result _ _ _ _ _ _).trans
        (Message.Text_ctor_result _ _ _ _ _ _).symm
    · exact Message.Text_ctor_result _ _ _ _ _ _
  · refine ⟨_, _, ⟨w'.heap.withNew (c.str [Field.orders orders, Field.bool false]),
        w'.s_encoding_empire⟩,
      ⟨MessageType.CLIENT_SAVE_DATA.toInt, sender, -1, ModuleType.CORE.toInt,
        (c.str [Field.orders orders, Field.bool false]).length, w'.heap.next⟩,
      hnone, ?_, rfl, rfl, rfl, ?_, ?_⟩
    · simp only [ClientSaveDataMessage, OArchive.write, Message.ctor_eq]
      rfl
    · exact (Message.Text_ctor_result _ _ _ _ _ _).trans
        (Message.Text_ctor_result _ _ _ _ _ _).symm
    · exact Message.Text_ctor_result _ _ _ _ _ _
  · intro ui_data
    cases ui_data with
    | none =>
      refine ⟨_, _, hnone, ?_⟩
      intro w3 m3 ui0 h3
      have ho := openArchive_of_text c hc w3 m3 _
        (h3.trans (Message.Text_ctor_result _ _ _ _ _ _))
      unfold ExtractMessageData_saveData
      rw [ho]
      rfl
    | some ui =>
      refine ⟨_, _, hsome ui, ?_⟩
      intro w3 m3 ui0 h3
      have ho := openArchive_of_text c hc w3 m3 _
        (h3.trans (Message.Text_ctor_result _ _ _ _ _ _))
      unfold ExtractMessageData_saveData
      rw [ho]
      rfl

/-- Witness of C21: the server sends player 1 the orders 10, 20, 30 without UI
data; the extractor, whose caller holds the UI data 99, returns `false` and
leaves 99. -/
theorem serverLoadGame_wire_shape_witness :
    ∃ w1 m1, ServerLoadGameMessage Codec.unarySimple ⟨Heap.empty, 0⟩ 1 [10, 20, 30] none
        = some (w1, m1) ∧
      ExtractMessageData_saveData Codec.unarySimple w1 m1 99 = some (false, [10, 20, 30], 99) :=
  let ⟨w1, m1, hb, hx⟩ :=
    (serverLoadGame_wire_shape Codec.unarySimple Codec.unarySimple_lossless
      ⟨Heap.empty, 0⟩ ⟨Heap.empty, 0⟩ 1 1 [10, 20, 30]).2.2 none
  ⟨w1, m1, hb, hx w1 m1 99 rfl⟩

end FreeOrion
